import Mathlib

/-!
# Verification of the babyai bonus levels (`babyai/levels/bonus_levels.py`)

A shallow embedding of the generation code of the repository:

* the tokenized instruction mini-grammar of `Level_JSON.parse_instr` and
  `Level_JSON.get_object`;
* the door/object placement logic shared by `Level_JSON.gen_mission` and
  `Level_parametrized.gen_mission` (the "genome vector" decoder);
* the step-wise instruction verifier (modelled from the spec, as the
  verifier module itself is not part of the sources under scrutiny);
* the rejection-sampling generator of `Level_GoToRedBlueBall.gen_mission`
  over an explicit RNG stream.

Machine integers of the original are modelled as `Int`/`Nat`; fallible
operations (Python assertions, dictionary lookups, list indexing) return
`Option`/`Except`.
-/

namespace BabyAI

/-- `COLOR_NAMES` of gym_minigrid (sorted color palette); modelled from the
spec's "enumerated palette" (the constant lives in the external minigrid
dependency). -/
def COLOR_NAMES : List String := ["blue", "green", "grey", "purple", "red", "yellow"]

/-- `OBJ_TYPES` of the babyai verifier module (not under src); modelled from
the spec's object kinds key/ball/box/door. -/
def OBJ_TYPES : List String := ["box", "ball", "key", "door"]

/-- `LOC_NAMES` of the babyai verifier module (not under src); modelled from
the spec's relative locations. -/
def LOC_NAMES : List String := ["left", "right", "front", "behind"]

/-- `IDX_TO_COLOR` of gym_minigrid: a dictionary keyed 0..5; an out-of-range
key raises `KeyError` in Python, modelled by `lookupIdx` returning `none`. -/
def IDX_TO_COLOR : List String := ["red", "green", "blue", "purple", "yellow", "grey"]

/-- `IDX_TO_OBJECT` of gym_minigrid: a dictionary keyed 0..10. -/
def IDX_TO_OBJECT : List String :=
  ["unseen", "empty", "wall", "floor", "door", "key", "ball", "box", "goal", "lava", "agent"]

/-- Dictionary lookup with an integer key (Python dict: an absent key fails,
negative keys do not wrap). -/
def lookupIdx (l : List String) (n : Int) : Option String :=
  if 0 ≤ n then l.get? n.toNat else none

/-- `ObjDesc` of the verifier: each of type/color/location either specified
or wildcard (`none`). -/
structure ObjDesc where
  type : Option String
  color : Option String
  loc : Option String
deriving DecidableEq, Repr

/-- The instruction AST built by `Level_JSON.parse_instr`.  `noneI` stands
for Python's `None`, which `parse_instr` returns when no grammar rule
matches (and which can end up as a child of a combinator). -/
inductive Instr where
  | goto (d : ObjDesc)
  | pickup (d : ObjDesc)
  | openI (d : ObjDesc)
  | putnext (a b : ObjDesc)
  | beforeI (a b : Instr)
  | afterI (a b : Instr)
  | andI (a b : Instr)
  | noneI
deriving DecidableEq, Repr

/-- One token step of `Level_JSON.get_object`. -/
def getObjectStep (d : ObjDesc) (s : String) : ObjDesc :=
  if s ∈ COLOR_NAMES then { d with color := some s }
  else if s ∈ OBJ_TYPES then { d with type := some s }
  else if s ∈ LOC_NAMES then { d with loc := some s }
  else d

/-- `Level_JSON.get_object` (bonus_levels.py lines 1120-1136): scan the
tokens; the last token that is a color name sets the color, the last type
name sets the type, the last location name sets the location. -/
def getObject (l : List String) : ObjDesc :=
  l.foldl getObjectStep ⟨none, none, none⟩

/-- First element of the list satisfying `p`, returned together with the
elements before it and after it.  This models Python's
`for i, s in enumerate(instr): if p(s): return ...` scan. -/
def splitAtFirst (p : String → Bool) : List String → Option (List String × String × List String)
  | [] => none
  | s :: rest =>
    if p s then some ([], s, rest)
    else
      match splitAtFirst p rest with
      | none => none
      | some (pre, t, suf) => some (s :: pre, t, suf)

theorem splitAtFirst_eq_none {p : String → Bool} :
    ∀ {l : List String}, splitAtFirst p l = none ↔ ∀ x ∈ l, p x = false := by
  intro l
  induction l with
  | nil => simp [splitAtFirst]
  | cons s rest ih =>
    simp only [splitAtFirst]
    by_cases hs : p s
    · rw [if_pos hs]
      constructor
      · intro h; cases h
      · intro hall
        have := hall s (List.mem_cons_self s rest)
        rw [hs] at this; cases this
    · rw [if_neg hs]
      have hsf : p s = false := by revert hs; cases p s <;> simp
      cases hrec : splitAtFirst p rest with
      | none =>
        constructor
        · intro _ x hx
          rcases List.mem_cons.mp hx with hx | hx
          · subst hx; exact hsf
          · exact ih.mp hrec x hx
        · intro _; rfl
      | some v =>
        obtain ⟨pre, t, suf⟩ := v
        constructor
        · intro h; cases h
        · intro hall
          have hnone : splitAtFirst p rest = none :=
            ih.mpr (fun x hx => hall x (List.mem_cons_of_mem _ hx))
          rw [hnone] at hrec; cases hrec

theorem splitAtFirst_eq_some {p : String → Bool} :
    ∀ {l : List String} {pre t suf}, splitAtFirst p l = some (pre, t, suf) →
      l = pre ++ t :: suf ∧ p t = true ∧ ∀ x ∈ pre, p x = false := by
  intro l
  induction l with
  | nil => intro pre t suf h; simp [splitAtFirst] at h
  | cons s rest ih =>
    intro pre t suf h
    simp only [splitAtFirst] at h
    by_cases hs : p s
    · rw [if_pos hs] at h
      simp only [Option.some.injEq, Prod.mk.injEq] at h
      obtain ⟨rfl, rfl, rfl⟩ := h
      exact ⟨rfl, hs, by intro x hx; cases hx⟩
    · rw [if_neg hs] at h
      cases hrec : splitAtFirst p rest with
      | none => rw [hrec] at h; cases h
      | some v =>
        obtain ⟨pre2, t2, suf2⟩ := v
        rw [hrec] at h
        simp only [Option.some.injEq, Prod.mk.injEq] at h
        obtain ⟨h1, rfl, rfl⟩ := h
        obtain ⟨heq, hpt, hpre⟩ := ih hrec
        subst h1
        refine ⟨by simp [heq], hpt, ?_⟩
        intro x hx
        rcases List.mem_cons.mp hx with hx | hx
        · subst hx; revert hs; cases p x <;> simp
        · exact hpre x hx

theorem splitAtFirst_append {p : String → Bool} {X : List String} {t : String} {Y : List String}
    (hX : ∀ x ∈ X, p x = false) (ht : p t = true) :
    splitAtFirst p (X ++ t :: Y) = some (X, t, Y) := by
  induction X with
  | nil => simp [splitAtFirst, ht]
  | cons s rest ih =>
    have hs : p s = false := hX s (List.mem_cons_self s rest)
    have hrest : ∀ x ∈ rest, p x = false := fun x hx => hX x (List.mem_cons_of_mem _ hx)
    rw [List.cons_append]
    simp only [splitAtFirst, hs, Bool.false_eq_true, if_false]
    rw [ih hrest]

/-- Token test of the first scan of `parse_instr`: at each position Python
checks `'then' == s` and then `'after' == s`. -/
def thenAfterP (s : String) : Bool := s == "then" || s == "after"

/-- The third scan of `parse_instr` (atomic instructions), with the fall
through behaviour of the `put` case: when no `next` token follows, the scan
continues at the next position.  `fuel` bounds the scan (it is called with
`l.length`, which is enough).  Slices follow the Python code exactly,
including `instr[j+2:]` in the `put` case, where `j` is an index into the
slice `instr[i+1:]` but is applied to the whole list. -/
def parseAtomF (l : List String) : Nat → Nat → Instr
  | _, 0 => .noneI
  | k, fuel + 1 =>
    if k < l.length then
      let s := l.getD k ""
      if s == "go" then .goto (getObject (l.drop (k + 2)))
      else if s == "pick" then .pickup (getObject (l.drop (k + 2)))
      else if s == "open" then .openI (getObject (l.drop (k + 1)))
      else if s == "put" then
        match splitAtFirst (· == "next") (l.drop (k + 1)) with
        | some (pre2, _, _) => .putnext (getObject pre2) (getObject (l.drop (pre2.length + 2)))
        | none => parseAtomF l (k + 1) fuel
      else parseAtomF l (k + 1) fuel
    else .noneI

/-- `Level_JSON.parse_instr` (bonus_levels.py lines 1139-1163), with a fuel
argument to make the recursion structural; `parseInstr` below instantiates
the fuel with the list length, which the congruence lemma shows is enough.
First scan: split at the first `then`/`after` token (a `then` at index `i`
recurses on `instr[0:i]` and `instr[i+1:]`, an `after` on `instr[0:i]` and
`instr[i+2:]` — note the extra dropped token).  Second scan: split at the
first `and`.  Third scan: atomic instructions. -/
def parseInstrF : Nat → List String → Instr
  | 0, _ => .noneI
  | fuel + 1, l =>
    match splitAtFirst thenAfterP l with
    | some (pre, t, suf) =>
      if t == "then" then .beforeI (parseInstrF fuel pre) (parseInstrF fuel suf)
      else .afterI (parseInstrF fuel pre) (parseInstrF fuel (suf.drop 1))
    | none =>
      match splitAtFirst (· == "and") l with
      | some (pre, _, suf) => .andI (parseInstrF fuel pre) (parseInstrF fuel suf)
      | none => parseAtomF l 0 l.length

/-- `Level_JSON.parse_instr`. -/
def parseInstr (l : List String) : Instr := parseInstrF l.length l

theorem parseInstrF_nil : ∀ fuel, parseInstrF fuel [] = .noneI := by
  intro fuel
  cases fuel with
  | zero => rfl
  | succ f => simp [parseInstrF, splitAtFirst, parseAtomF]

theorem parseInstrF_fuel :
    ∀ f1 : Nat, ∀ f2 : Nat, ∀ l : List String, l.length ≤ f1 → l.length ≤ f2 →
      parseInstrF f1 l = parseInstrF f2 l := by
  intro f1
  induction f1 with
  | zero =>
    intro f2 l h1 _
    have : l = [] := List.length_eq_zero.mp (Nat.le_zero.mp h1)
    subst this
    rw [parseInstrF_nil, parseInstrF_nil]
  | succ f ih =>
    intro f2 l h1 h2
    cases f2 with
    | zero =>
      have : l = [] := List.length_eq_zero.mp (Nat.le_zero.mp h2)
      subst this
      rw [parseInstrF_nil, parseInstrF_nil]
    | succ f2 =>
      show parseInstrF (f + 1) l = parseInstrF (f2 + 1) l
      cases hsp : splitAtFirst thenAfterP l with
      | some v =>
        obtain ⟨pre, t, suf⟩ := v
        obtain ⟨heq, _, _⟩ := splitAtFirst_eq_some hsp
        have hlen : pre.length + (t :: suf).length = l.length := by
          rw [heq, List.length_append]
        simp only [List.length_cons] at hlen
        have hpre1 : pre.length ≤ f := by omega
        have hpre2 : pre.length ≤ f2 := by omega
        have hsuf1 : suf.length ≤ f := by omega
        have hsuf2 : suf.length ≤ f2 := by omega
        have hd1 : (suf.drop 1).length ≤ f := by
          have := List.length_drop 1 suf; omega
        have hd2 : (suf.drop 1).length ≤ f2 := by
          have := List.length_drop 1 suf; omega
        simp only [parseInstrF, hsp]
        by_cases ht : (t == "then") = true
        · rw [if_pos ht, if_pos ht, ih f2 pre hpre1 hpre2, ih f2 suf hsuf1 hsuf2]
        · rw [if_neg ht, if_neg ht, ih f2 pre hpre1 hpre2, ih f2 (suf.drop 1) hd1 hd2]
      | none =>
        cases hsp2 : splitAtFirst (· == "and") l with
        | some v =>
          obtain ⟨pre, t, suf⟩ := v
          obtain ⟨heq, _, _⟩ := splitAtFirst_eq_some hsp2
          have hlen : pre.length + (t :: suf).length = l.length := by
            rw [heq, List.length_append]
          simp only [List.length_cons] at hlen
          have hpre1 : pre.length ≤ f := by omega
          have hpre2 : pre.length ≤ f2 := by omega
          have hsuf1 : suf.length ≤ f := by omega
          have hsuf2 : suf.length ≤ f2 := by omega
          simp only [parseInstrF, hsp, hsp2]
          rw [ih f2 pre hpre1 hpre2, ih f2 suf hsuf1 hsuf2]
        | none => simp only [parseInstrF, hsp, hsp2]

/-- Unfolding `parseInstr` at a `then` split. -/
theorem parseInstr_split_then {l pre suf} (h : splitAtFirst thenAfterP l = some (pre, "then", suf)) :
    parseInstr l = .beforeI (parseInstr pre) (parseInstr suf) := by
  obtain ⟨heq, _, _⟩ := splitAtFirst_eq_some h
  have hlen : pre.length + (suf.length + 1) = l.length := by
    rw [heq, List.length_append]; simp
  have hl : 1 ≤ l.length := by omega
  obtain ⟨m, hm⟩ : ∃ m, l.length = m + 1 := ⟨l.length - 1, by omega⟩
  unfold parseInstr
  rw [hm]
  simp only [parseInstrF, h]
  rw [if_pos (show (("then" : String) == "then") = true from rfl)]
  rw [parseInstrF_fuel m pre.length pre (by omega) (le_refl _),
    parseInstrF_fuel m suf.length suf (by omega) (le_refl _)]

/-- Unfolding `parseInstr` at an `after` split: the token directly after
`after` is dropped (`instr[i+2:]`). -/
theorem parseInstr_split_after {l pre t suf} (h : splitAtFirst thenAfterP l = some (pre, t, suf))
    (ht : t ≠ "then") :
    parseInstr l = .afterI (parseInstr pre) (parseInstr (suf.drop 1)) := by
  obtain ⟨heq, _, _⟩ := splitAtFirst_eq_some h
  have hlen : pre.length + (suf.length + 1) = l.length := by
    rw [heq, List.length_append]; simp
  obtain ⟨m, hm⟩ : ∃ m, l.length = m + 1 := ⟨l.length - 1, by omega⟩
  have hdrop : (suf.drop 1).length ≤ suf.length := by
    rw [List.length_drop]; omega
  unfold parseInstr
  rw [hm]
  simp only [parseInstrF, h]
  rw [if_neg (show ¬((t == "then") = true) from by simpa using ht)]
  rw [parseInstrF_fuel m pre.length pre (by omega) (le_refl _),
    parseInstrF_fuel m (suf.drop 1).length (suf.drop 1) (by omega) (le_refl _)]

/-- Unfolding `parseInstr` at an `and` split (no `then`/`after` present). -/
theorem parseInstr_split_and {l pre t suf} (h0 : splitAtFirst thenAfterP l = none)
    (h : splitAtFirst (· == "and") l = some (pre, t, suf)) :
    parseInstr l = .andI (parseInstr pre) (parseInstr suf) := by
  obtain ⟨heq, _, _⟩ := splitAtFirst_eq_some h
  have hlen : pre.length + (suf.length + 1) = l.length := by
    rw [heq, List.length_append]; simp
  obtain ⟨m, hm⟩ : ∃ m, l.length = m + 1 := ⟨l.length - 1, by omega⟩
  unfold parseInstr
  rw [hm]
  simp only [parseInstrF, h0, h]
  rw [parseInstrF_fuel m pre.length pre (by omega) (le_refl _),
    parseInstrF_fuel m suf.length suf (by omega) (le_refl _)]

/-- Does the AST contain an `And` combinator? -/
def containsAnd : Instr → Bool
  | .andI _ _ => true
  | .beforeI a b => containsAnd a || containsAnd b
  | .afterI a b => containsAnd a || containsAnd b
  | _ => false

/-- No `after` token is immediately followed by an `and` token (the pattern
under which `parse_instr` drops the `and` token, see
`parseInstr_split_after`). -/
def noAfterAnd : List String → Bool
  | [] => true
  | [_] => true
  | a :: b :: rest => !(a == "after" && b == "and") && noAfterAnd (b :: rest)

theorem noAfterAnd_tail {s : String} {t : List String} (h : noAfterAnd (s :: t) = true) :
    noAfterAnd t = true := by
  cases t with
  | nil => rfl
  | cons b rest =>
    simp only [noAfterAnd, Bool.and_eq_true] at h
    exact h.2

theorem noAfterAnd_suffix :
    ∀ {a b : List String}, noAfterAnd (a ++ b) = true → noAfterAnd b = true := by
  intro a
  induction a with
  | nil => intro b h; exact h
  | cons s rest ih =>
    intro b h
    exact ih (noAfterAnd_tail h)

theorem noAfterAnd_head_pair {c : String} {rest : List String}
    (h : noAfterAnd ("after" :: c :: rest) = true) : c ≠ "and" := by
  intro hc
  subst hc
  simp [noAfterAnd] at h

/-- Property of the scan tokens: `and` is neither `then` nor `after`. -/
theorem thenAfterP_and : thenAfterP "and" = false := by decide

/-- If a token list contains no `then`/`after` and contains `and`, its parse
has an `And` combinator (indeed at the root). -/
theorem containsAnd_parse_noTA {l : List String}
    (hta : splitAtFirst thenAfterP l = none) (hand : "and" ∈ l) :
    containsAnd (parseInstr l) = true := by
  have : ∃ pre t suf, splitAtFirst (fun s => s == "and") l = some (pre, t, suf) := by
    cases h : splitAtFirst (fun s => s == "and") l with
    | none =>
      exfalso
      have := (splitAtFirst_eq_none).mp h "and" hand
      simp at this
    | some v => exact ⟨v.1, v.2.1, v.2.2, rfl⟩
  obtain ⟨pre, t, suf, h⟩ := this
  rw [parseInstr_split_and hta h]
  rfl

/-- Key lemma for C1: if the token list contains `and`, and no `after` token
is immediately followed by `and`, then the parsed AST contains an `And`
combinator. -/
theorem containsAnd_parse_aux :
    ∀ n : Nat, ∀ l : List String, l.length ≤ n → "and" ∈ l → noAfterAnd l = true →
      containsAnd (parseInstr l) = true := by
  intro n
  induction n with
  | zero =>
    intro l hl hand _
    have : l = [] := List.length_eq_zero.mp (Nat.le_zero.mp hl)
    subst this; cases hand
  | succ n ih =>
  intro l hl hand hnaa
  cases hsp : splitAtFirst thenAfterP l with
  | none => exact containsAnd_parse_noTA hsp hand
  | some v =>
    obtain ⟨pre, t, suf⟩ := v
    obtain ⟨heq, hpt, hpre⟩ := splitAtFirst_eq_some hsp
    have hlen : pre.length + (suf.length + 1) = l.length := by
      rw [heq, List.length_append]; simp
    have htne : t ≠ "and" := by
      intro hc; subst hc; rw [thenAfterP_and] at hpt; cases hpt
    have hmem : "and" ∈ pre ∨ "and" ∈ suf := by
      rw [heq] at hand
      rcases List.mem_append.mp hand with h | h
      · exact Or.inl h
      · rcases List.mem_cons.mp h with h | h
        · exact absurd h.symm htne
        · exact Or.inr h
    have hpreNoTA : splitAtFirst thenAfterP pre = none :=
      splitAtFirst_eq_none.mpr hpre
    by_cases ht : (t == "then") = true
    · have ht' : t = "then" := by simpa using ht
      subst ht'
      rw [parseInstr_split_then hsp]
      simp only [containsAnd, Bool.or_eq_true]
      rcases hmem with h | h
      · exact Or.inl (containsAnd_parse_noTA hpreNoTA h)
      · refine Or.inr (ih suf (by omega) h ?_)
        have : noAfterAnd ("then" :: suf) = true := noAfterAnd_suffix (heq ▸ hnaa)
        exact noAfterAnd_tail this
    · have ht' : t ≠ "then" := by simpa using ht
      rw [parseInstr_split_after hsp ht']
      simp only [containsAnd, Bool.or_eq_true]
      rcases hmem with h | h
      · exact Or.inl (containsAnd_parse_noTA hpreNoTA h)
      · -- `and` is in `suf`; the head of `suf` is not `and` when `t = after`
        have htaft : t = "after" := by
          simp only [thenAfterP, Bool.or_eq_true] at hpt
          rcases hpt with hp | hp
          · exact absurd (by simpa using hp) ht'
          · simpa using hp
        subst htaft
        have hsufN : noAfterAnd ("after" :: suf) = true := noAfterAnd_suffix (heq ▸ hnaa)
        cases hsufc : suf with
        | nil => subst hsufc; cases h
        | cons c rest =>
          subst hsufc
          have hcne : c ≠ "and" := noAfterAnd_head_pair hsufN
          have hin : "and" ∈ rest := by
            rcases List.mem_cons.mp h with h | h
            · exact absurd h.symm hcne
            · exact h
          have hdrop : (c :: rest).drop 1 = rest := rfl
          rw [hdrop]
          refine Or.inr (ih rest (by simp at hlen; omega) hin ?_)
          exact noAfterAnd_tail (noAfterAnd_tail hsufN)

theorem containsAnd_parse (l : List String) (hand : "and" ∈ l) (hnaa : noAfterAnd l = true) :
    containsAnd (parseInstr l) = true :=
  containsAnd_parse_aux l.length l (le_refl _) hand hnaa

/-- C1 -- the precedence claim.  As stated in the claim it is refuted by
`c1_counterexample` (the parser drops the token directly after `after`,
which can be the `and` token itself); under the amended side condition
`noAfterAnd` the claim holds: the first `then`/`after` becomes the root
combinator with the `And` combinator strictly inside one of its children,
and a `then` split at the first `then`/`after` position yields
`BeforeInstr(parse of the tokens before it, parse of the tokens after it)`. -/
theorem c1_then_after_precedence (l : List String)
    (h1 : "and" ∈ l) (h2 : "then" ∈ l ∨ "after" ∈ l) (h3 : noAfterAnd l = true) :
    (∃ a b, (parseInstr l = .beforeI a b ∨ parseInstr l = .afterI a b) ∧
        (containsAnd a = true ∨ containsAnd b = true)) ∧
    (∀ X Y, l = X ++ "then" :: Y → "then" ∉ X → "after" ∉ X →
        parseInstr l = .beforeI (parseInstr X) (parseInstr Y)) := by
  constructor
  · have hsome : ∃ pre t suf, splitAtFirst thenAfterP l = some (pre, t, suf) := by
      cases h : splitAtFirst thenAfterP l with
      | none =>
        exfalso
        have hall := splitAtFirst_eq_none.mp h
        rcases h2 with hm | hm
        · have := hall "then" hm; simp [thenAfterP] at this
        · have := hall "after" hm; simp [thenAfterP] at this
      | some v => exact ⟨v.1, v.2.1, v.2.2, rfl⟩
    obtain ⟨pre, t, suf, hsp⟩ := hsome
    have hca := containsAnd_parse l h1 h3
    by_cases ht : (t == "then") = true
    · have ht' : t = "then" := by simpa using ht
      subst ht'
      rw [parseInstr_split_then hsp] at hca ⊢
      refine ⟨parseInstr pre, parseInstr suf, Or.inl rfl, ?_⟩
      simpa only [containsAnd, Bool.or_eq_true] using hca
    · have ht' : t ≠ "then" := by simpa using ht
      rw [parseInstr_split_after hsp ht'] at hca ⊢
      refine ⟨parseInstr pre, parseInstr (suf.drop 1), Or.inr rfl, ?_⟩
      simpa only [containsAnd, Bool.or_eq_true] using hca
  · intro X Y hXY hthen hafter
    have hX : ∀ x ∈ X, thenAfterP x = false := by
      intro x hx
      simp only [thenAfterP, Bool.or_eq_false_iff]
      constructor
      · cases hxe : x == "then" with
        | false => rfl
        | true => exact absurd (by simpa using hxe : x = "then") (fun h => hthen (h ▸ hx))
      · cases hxe : x == "after" with
        | false => rfl
        | true => exact absurd (by simpa using hxe : x = "after") (fun h => hafter (h ▸ hx))
    have hsp : splitAtFirst thenAfterP (X ++ "then" :: Y) = some (X, "then", Y) :=
      splitAtFirst_append hX (by decide)
    subst hXY
    exact parseInstr_split_then hsp

/-- C1 counterexample: the list contains both `and` and `after`, yet the
parsed AST contains no `And` combinator at all (the `and` token is the
token directly after `after` and is dropped by `parse_instr`). -/
theorem c1_counterexample :
    "and" ∈ ["go", "to", "ball", "after", "and", "open", "door"] ∧
    "after" ∈ ["go", "to", "ball", "after", "and", "open", "door"] ∧
    containsAnd (parseInstr ["go", "to", "ball", "after", "and", "open", "door"]) = false := by
  decide

/-- Witness for `c1_then_after_precedence` at a concrete token list. -/
theorem c1_witness :
    ∃ a b,
      (parseInstr ["open", "door", "and", "go", "to", "ball", "then", "pick", "up", "key"]
          = .beforeI a b ∨
       parseInstr ["open", "door", "and", "go", "to", "ball", "then", "pick", "up", "key"]
          = .afterI a b) ∧
      (containsAnd a = true ∨ containsAnd b = true) :=
  (c1_then_after_precedence
    ["open", "door", "and", "go", "to", "ball", "then", "pick", "up", "key"]
    (by decide) (Or.inl (by decide)) (by decide)).1

/-- C2 (amended) -- splitting at the first `after`: the right operand is the
parse of the tokens after `after` with the FIRST of them dropped
(`instr[i+2:]` in the source), not the parse of all of them. -/
theorem c2_after_split (X Y : List String) (h1 : "then" ∉ X) (h2 : "after" ∉ X) :
    parseInstr (X ++ "after" :: Y) = .afterI (parseInstr X) (parseInstr (Y.drop 1)) := by
  have hX : ∀ x ∈ X, thenAfterP x = false := by
    intro x hx
    simp only [thenAfterP, Bool.or_eq_false_iff]
    constructor
    · cases hxe : x == "then" with
      | false => rfl
      | true => exact absurd (by simpa using hxe : x = "then") (fun h => h1 (h ▸ hx))
    · cases hxe : x == "after" with
      | false => rfl
      | true => exact absurd (by simpa using hxe : x = "after") (fun h => h2 (h ▸ hx))
  have hsp : splitAtFirst thenAfterP (X ++ "after" :: Y) = some (X, "after", Y) :=
    splitAtFirst_append hX (by decide)
  exact parseInstr_split_after hsp (by decide)

/-- C2 counterexample: the right operand of `after` is NOT the parse of the
entire token sequence following the `after` token -- the first token after
`after` is dropped. -/
theorem c2_counterexample :
    parseInstr (["go", "to", "ball"] ++ "after" :: ["open", "red", "door"]) ≠
      .afterI (parseInstr ["go", "to", "ball"]) (parseInstr ["open", "red", "door"]) := by
  decide

/-- Witness for `c2_after_split` at a concrete token list. -/
theorem c2_witness :
    parseInstr (["go", "to", "ball"] ++ "after" :: ["you", "open", "red", "door"]) =
      .afterI (parseInstr ["go", "to", "ball"])
        (parseInstr (["you", "open", "red", "door"].drop 1)) :=
  c2_after_split ["go", "to", "ball"] ["you", "open", "red", "door"] (by decide) (by decide)

/-- Is a token recognised by `get_object` (it sets one of the three
descriptor fields)? -/
def recognizedToken (s : String) : Bool :=
  decide (s ∈ COLOR_NAMES) || decide (s ∈ OBJ_TYPES) || decide (s ∈ LOC_NAMES)

/-- All three fields of the descriptor are wildcard. -/
def AllWildcard (d : ObjDesc) : Prop :=
  d.type = none ∧ d.color = none ∧ d.loc = none

instance (d : ObjDesc) : Decidable (AllWildcard d) := by
  unfold AllWildcard; infer_instance

/-- Modelled from the spec: "a descriptor with all fields wildcard is
invalid for goal use (must be rejected at generation time)".  The check
itself lives in the verifier module (not under src/); attaching a
descriptor to a goal rejects the all-wildcard descriptor. -/
def goalDesc? (d : ObjDesc) : Option ObjDesc :=
  if AllWildcard d then none else some d

theorem getObjectStep_allWildcard (d : ObjDesc) (s : String) :
    AllWildcard (getObjectStep d s) ↔ AllWildcard d ∧ recognizedToken s = false := by
  unfold getObjectStep recognizedToken AllWildcard
  by_cases hc : s ∈ COLOR_NAMES
  · simp [hc]
  · by_cases hty : s ∈ OBJ_TYPES
    · simp [hc, hty]
    · by_cases hlo : s ∈ LOC_NAMES
      · simp [hc, hty, hlo]
      · simp [hc, hty, hlo]

theorem foldl_getObjectStep_allWildcard :
    ∀ (l : List String) (d : ObjDesc),
      AllWildcard (l.foldl getObjectStep d) ↔
        AllWildcard d ∧ ∀ s ∈ l, recognizedToken s = false := by
  intro l
  induction l with
  | nil => intro d; simp
  | cons s rest ih =>
    intro d
    rw [List.foldl_cons, ih (getObjectStep d s)]
    rw [getObjectStep_allWildcard]
    constructor
    · rintro ⟨⟨hd, hs⟩, hrest⟩
      refine ⟨hd, ?_⟩
      intro x hx
      rcases List.mem_cons.mp hx with hx | hx
      · subst hx; exact hs
      · exact hrest x hx
    · rintro ⟨hd, hall⟩
      exact ⟨⟨hd, hall s (List.mem_cons_self s rest)⟩,
        fun x hx => hall x (List.mem_cons_of_mem _ hx)⟩

/-- C3 -- the all-wildcard descriptor built by `Level_JSON.get_object` is
rejected when attached to a goal, never silently used: the rejection fires
exactly when no token of the instruction names a color, a type or a
location, and any descriptor that survives has at least one specified
field. -/
theorem c3_no_all_wildcard_goal (l : List String) :
    (goalDesc? (getObject l) = none ↔ ∀ s ∈ l, recognizedToken s = false) ∧
    (∀ d, goalDesc? (getObject l) = some d →
      (d.type ≠ none ∨ d.color ≠ none ∨ d.loc ≠ none)) := by
  constructor
  · unfold goalDesc?
    by_cases h : AllWildcard (getObject l)
    · rw [if_pos h]
      have := (foldl_getObjectStep_allWildcard l ⟨none, none, none⟩).mp h
      simpa using this.2
    · rw [if_neg h]
      constructor
      · intro hc; cases hc
      · intro hall
        exfalso
        exact h ((foldl_getObjectStep_allWildcard l ⟨none, none, none⟩).mpr
          ⟨⟨rfl, rfl, rfl⟩, hall⟩)
  · intro d hd
    unfold goalDesc? at hd
    by_cases h : AllWildcard (getObject l)
    · rw [if_pos h] at hd; cases hd
    · rw [if_neg h] at hd
      have hdg : getObject l = d := by injection hd
      subst hdg
      unfold AllWildcard at h
      by_cases h1 : (getObject l).type = none
      · by_cases h2 : (getObject l).color = none
        · exact Or.inr (Or.inr (fun h3 => h ⟨h1, h2, h3⟩))
        · exact Or.inr (Or.inl h2)
      · exact Or.inl h1

/-- Witness for `c3_no_all_wildcard_goal`: a token list with no attribute
token is rejected at goal-attachment time. -/
theorem c3_witness :
    goalDesc? (getObject ["go", "to", "there"]) = none :=
  ((c3_no_all_wildcard_goal ["go", "to", "there"]).1).mpr (by decide)

/-!
## The instruction verifier (modelled from the spec, section 4.4)

The verifier module is not under src/; the state machine below follows the
spec: atomic `Open` nodes go `Pending → Done` when a door matching the
descriptor transitions closed→open; `Done` is terminal.  `Before(A, B)`
feeds events to `A` until `A` is done, and only events strictly after
`A`'s `Done` transition reach `B`.  `After(A, B)` is `Before(B, A)`.
`And` feeds both children.  Location descriptors are agent-relative and
not modelled: an event carries the opened door's type and color. -/

/-- A world-state delta relevant to `Open` goals: a door of this type and
color just transitioned closed→open. -/
structure Event where
  etype : String
  ecolor : String
deriving DecidableEq, Repr

/-- Does the event satisfy the descriptor (conjunctive matching on the
specified fields; a location field never matches in this event model)? -/
def eventMatches (d : ObjDesc) (e : Event) : Bool :=
  (match d.type with | none => true | some t => t == e.etype) &&
  (match d.color with | none => true | some c => c == e.ecolor) &&
  (d.loc == none)

/-- Verifier tree: instruction AST with per-node progress state (the `done`
flag of each atomic node). -/
inductive VTree where
  | openA (d : ObjDesc) (dn : Bool)
  | beforeV (a b : VTree)
  | afterV (a b : VTree)
  | andV (a b : VTree)
deriving DecidableEq, Repr

/-- Is the node `Done`? -/
def vdone : VTree → Bool
  | .openA _ dn => dn
  | .beforeV a b => vdone a && vdone b
  | .afterV a b => vdone a && vdone b
  | .andV a b => vdone a && vdone b

/-- One verifier step on a world-state delta. -/
def vstep (e : Event) : VTree → VTree
  | .openA d dn => .openA d (dn || eventMatches d e)
  | .beforeV a b => if vdone a then .beforeV a (vstep e b) else .beforeV (vstep e a) b
  | .afterV a b => if vdone b then .afterV (vstep e a) b else .afterV a (vstep e b)
  | .andV a b => .andV (vstep e a) (vstep e b)

/-- Run the verifier over a trace of deltas. -/
def vrun (t : VTree) : List Event → VTree
  | [] => t
  | e :: es => vrun (vstep e t) es

/-- `Done` is terminal: once a node is done it stays done. -/
theorem vdone_mono (e : Event) : ∀ t : VTree, vdone t = true → vdone (vstep e t) = true := by
  intro t
  induction t with
  | openA d dn => intro h; simp only [vdone] at h; simp [vstep, vdone, h]
  | beforeV a b iha ihb =>
    intro h
    simp only [vdone, Bool.and_eq_true] at h
    simp [vstep, h.1, vdone, ihb h.2]
  | afterV a b iha ihb =>
    intro h
    simp only [vdone, Bool.and_eq_true] at h
    simp [vstep, h.2, vdone, iha h.1]
  | andV a b iha ihb =>
    intro h
    simp only [vdone, Bool.and_eq_true] at h
    simp [vstep, vdone, iha h.1, ihb h.2]

theorem vrun_cons (t : VTree) (e : Event) (es : List Event) :
    vrun t (e :: es) = vrun (vstep e t) es := rfl

/-- While `A` is not yet done at the end of the trace, `B` has received no
event at all: the `Before` run only advanced `A`. -/
theorem before_frozen_b :
    ∀ (tr : List Event) (a b : VTree), vdone (vrun a tr) = false →
      vrun (.beforeV a b) tr = .beforeV (vrun a tr) b := by
  intro tr
  induction tr with
  | nil => intro a b _; rfl
  | cons e es ih =>
    intro a b hnd
    rw [vrun_cons] at hnd
    have ha : vdone a = false := by
      cases hc : vdone a with
      | false => rfl
      | true =>
        exfalso
        have hmono : ∀ (l : List Event) (t : VTree), vdone t = true → vdone (vrun t l) = true := by
          intro l
          induction l with
          | nil => intro t h; exact h
          | cons x xs ihx => intro t h; exact ihx _ (vdone_mono x t h)
        rw [hmono es (vstep e a) (vdone_mono e a hc)] at hnd
        cases hnd
    have hstep : vstep e (VTree.beforeV a b) = VTree.beforeV (vstep e a) b := by
      simp [vstep, ha]
    rw [vrun_cons, hstep, vrun_cons, ih (vstep e a) b hnd]

/-- The instruction built by `Level_OpenTwoDoors.gen_mission`
(bonus_levels.py lines 499-502): open the first door, then the second.
(The `strict` flag only affects episode termination, not the ordering
logic, and is omitted.) -/
def openTwoDoorsInstr (c1 c2 : String) : VTree :=
  .beforeV (.openA ⟨some "door", some c1, none⟩ false)
    (.openA ⟨some "door", some c2, none⟩ false)

/-- C8 -- Before-ordering.  (i) An action satisfying `B` before `A` is done
does not mark `B` done: as long as `A` is still pending at the end of the
trace, `B`'s progress state is untouched.  (ii) For the two-door mission of
`Level_OpenTwoDoors`, opening the doors in the stated order succeeds, while
opening the second door first and then the first (without reopening the
second) does not. -/
theorem c8_before_ordering :
    (∀ (tr : List Event) (a b : VTree), vdone (vrun a tr) = false →
        vrun (.beforeV a b) tr = .beforeV (vrun a tr) b) ∧
    (∀ c1 c2 : String, c1 ≠ c2 →
        vdone (vrun (openTwoDoorsInstr c1 c2) [⟨"door", c1⟩, ⟨"door", c2⟩]) = true ∧
        vdone (vrun (openTwoDoorsInstr c1 c2) [⟨"door", c2⟩, ⟨"door", c1⟩]) = false) := by
  constructor
  · exact before_frozen_b
  · intro c1 c2 hne
    have h12 : (c1 == c2) = false := by
      cases h : c1 == c2 with
      | false => rfl
      | true => exact absurd (by simpa using h) hne
    have h21 : (c2 == c1) = false := by
      cases h : c2 == c1 with
      | false => rfl
      | true =>
        have h21 : c2 = c1 := by simpa using h
        exact absurd h21.symm hne
    constructor
    · simp [openTwoDoorsInstr, vrun, vstep, vdone, eventMatches, h12, h21]
    · simp [openTwoDoorsInstr, vrun, vstep, vdone, eventMatches, h12, h21]

/-- Witness for `c8_before_ordering`: the red-then-blue mission
(`Level_OpenRedBlueDoors`). -/
theorem c8_witness :
    vdone (vrun (openTwoDoorsInstr "red" "blue") [⟨"door", "red"⟩, ⟨"door", "blue"⟩]) = true ∧
    vdone (vrun (openTwoDoorsInstr "red" "blue") [⟨"door", "blue"⟩, ⟨"door", "red"⟩]) = false :=
  (c8_before_ordering.2 "red" "blue" (by decide))

/-!
## The declarative mission loaders (`Level_JSON` / `Level_parametrized`)

World state touched by the door/object placement code of
`Level_JSON.gen_mission` (lines 1046-1118) and
`Level_parametrized.gen_mission` (lines 1184-1263).  The two door blocks
are verbatim copies of each other in the source and are embedded once as
`placeDoor`.  The room-grid layout (top-left corners at multiples of
`room_size - 1`, adjacent rooms sharing a wall, neighbor `idx` pointing
right/down/left/up for 0/1/2/3) is modelled from the spec's Room data
model and the RoomGrid conventions of the external minigrid dependency;
Python assertions, dictionary lookups and absent neighbors are modelled as
`none` (negative list indices, which Python would wrap, are also modelled
as failures). -/

/-- A world object as placed by the loaders. -/
inductive WObj where
  | key (color : String)
  | ball (color : String)
  | box (color : String)
  | door (color : String) (locked : Int)
deriving DecidableEq, Repr

def WObj.isDoor : WObj → Bool
  | .door _ _ => true
  | _ => false

/-- The four per-direction slots of a room (`room.doors`,
`room.door_pos`). -/
structure Slots4 (α : Type) where
  s0 : Option α
  s1 : Option α
  s2 : Option α
  s3 : Option α
deriving DecidableEq, Repr

def Slots4.empty {α : Type} : Slots4 α := ⟨none, none, none, none⟩

def Slots4.get {α : Type} (v : Slots4 α) (idx : Int) : Option α :=
  if idx = 0 then v.s0 else if idx = 1 then v.s1 else if idx = 2 then v.s2
  else if idx = 3 then v.s3 else none

def Slots4.set {α : Type} (v : Slots4 α) (idx : Int) (x : α) : Slots4 α :=
  if idx = 0 then { v with s0 := some x } else if idx = 1 then { v with s1 := some x }
  else if idx = 2 then { v with s2 := some x } else if idx = 3 then { v with s3 := some x }
  else v

theorem Slots4.get_set {α : Type} (v : Slots4 α) (idx idx2 : Int) (x : α) :
    (v.set idx x).get idx2 =
      if idx = idx2 ∧ 0 ≤ idx ∧ idx < 4 then some x else v.get idx2 := by
  unfold Slots4.set Slots4.get
  split_ifs <;> first | rfl | (exfalso; omega)

/-- A room: contained objects, per-direction door and door-position slots,
and the `locked` bookkeeping flag. -/
structure Room where
  objs : List WObj
  doors : Slots4 WObj
  doorPos : Slots4 (Int × Int)
  lockedFlag : Int
deriving DecidableEq, Repr

def Room.empty : Room := ⟨[], Slots4.empty, Slots4.empty, 0⟩

/-- World state of a loader run: the room grid (row-major: `rooms[j][i]`),
the journal of `grid.set` calls (most recent first), and the agent. -/
structure GenState where
  rooms : List (List Room)
  grid : List ((Int × Int) × WObj)
  agentPos : Option (Int × Int)
  agentDir : Int
deriving DecidableEq, Repr

def initState (rows cols : Nat) : GenState :=
  ⟨List.replicate rows (List.replicate cols Room.empty), [], none, 0⟩

theorem lget_set_eq {α : Type} :
    ∀ (l : List α) (i : Nat) (a : α), i < l.length → (l.set i a).get? i = some a := by
  intro l
  induction l with
  | nil => intro i a h; cases h
  | cons x xs ih =>
    intro i a h
    cases i with
    | zero => rfl
    | succ n =>
      simp only [List.set, List.get?]
      exact ih n a (by simpa using h)

theorem lget_set_ne {α : Type} :
    ∀ (l : List α) (i j : Nat) (a : α), i ≠ j → (l.set i a).get? j = l.get? j := by
  intro l
  induction l with
  | nil => intro i j a _; simp
  | cons x xs ih =>
    intro i j a hne
    cases i with
    | zero =>
      cases j with
      | zero => exact absurd rfl hne
      | succ m => rfl
    | succ n =>
      cases j with
      | zero => rfl
      | succ m =>
        simp only [List.set, List.get?]
        exact ih n m a (by omega)

/-- Room lookup on the raw row-major grid. -/
def getRoomG (rs : List (List Room)) (i j : Int) : Option Room :=
  if 0 ≤ i ∧ 0 ≤ j then
    match rs.get? j.toNat with
    | none => none
    | some row => row.get? i.toNat
  else none

/-- Room replacement on the raw row-major grid. -/
def setRoomG (rs : List (List Room)) (i j : Int) (r : Room) : List (List Room) :=
  match rs.get? j.toNat with
  | none => rs
  | some row => rs.set j.toNat (row.set i.toNat r)

/-- `RoomGrid.get_room(i, j)`: bounds-checked room lookup (`i` is the
column, `j` the row). -/
def getRoom? (st : GenState) (i j : Int) : Option Room := getRoomG st.rooms i j

/-- Replace the room at `(i, j)` (only used after a successful
`getRoom?`). -/
def setRoom (st : GenState) (i j : Int) (r : Room) : GenState :=
  { st with rooms := setRoomG st.rooms i j r }

/-- Top-left corner of room `(i, j)` in world cells (RoomGrid layout:
adjacent rooms share a wall). -/
def roomTop (S : Int) (i j : Int) : Int × Int := (i * (S - 1), j * (S - 1))

/-- `room.neighbors[idx]`: the adjacent room in direction `idx`
(0 right, 1 down, 2 left, 3 up). -/
def neighborIdx (i j idx : Int) : Int × Int :=
  if idx = 0 then (i + 1, j) else if idx = 1 then (i, j + 1)
  else if idx = 2 then (i - 1, j) else (i, j - 1)

/-- The door cell computed by the loaders (lines 1097-1107 and 1242-1252):
`x_l, y_l = top + 1`, `x_m, y_m = top + size - 1`, and the cell is picked
from `door_idx` and the local offset `off`. -/
def doorPosOf (S : Int) (i j idx off : Int) : Int × Int :=
  let top := roomTop S i j
  if idx = 0 then (top.1 + S - 1, top.2 + off)
  else if idx = 1 then (top.1 + off, top.2 + S - 1)
  else if idx = 2 then (top.1 + 1, top.2 + off)
  else (top.1 + off, top.2 + 1)

/-- `Grid.set` bounds (the mission grid is
`(S-1)*cols + 1` by `(S-1)*rows + 1` cells). -/
def inGrid (rows cols : Nat) (S : Int) (p : Int × Int) : Prop :=
  0 ≤ p.1 ∧ p.1 < (S - 1) * (cols : Int) + 1 ∧ 0 ≤ p.2 ∧ p.2 < (S - 1) * (rows : Int) + 1

instance (rows cols : Nat) (S : Int) (p : Int × Int) : Decidable (inGrid rows cols S p) := by
  unfold inGrid; infer_instance

/-- The door-placement block shared verbatim by `Level_JSON.gen_mission`
(lines 1090-1116) and `Level_parametrized.gen_mission` (lines 1230-1261):
fetch the room, assert `room.doors[door_idx] is None` ("door already
exists"), compute the cell from `door_idx` and the offset, set the grid
cell, and register the door in the room and in the neighbor at the
complementary index `(door_idx + 2) % 4`.  Failures (bad color, missing
room or neighbor, out-of-range index, occupied slot, grid bounds) return
`none`. -/
def placeDoor (S : Int) (rows cols : Nat) (st : GenState)
    (i j idx : Int) (color? : Option String) (locked off : Int) : Option GenState :=
  match color? with
  | none => none
  | some c =>
    if c ∈ IDX_TO_COLOR then
      match getRoom? st i j with
      | none => none
      | some room =>
        if 0 ≤ idx ∧ idx < 4 then
          match room.doors.get idx with
          | some _ => none
          | none =>
            let pos := doorPosOf S i j idx off
            let d : WObj := .door c locked
            let nij := neighborIdx i j idx
            match getRoom? st nij.1 nij.2 with
            | none => none
            | some nroom =>
              if inGrid rows cols S pos then
                let room2 : Room :=
                  { room with lockedFlag := locked,
                              doorPos := room.doorPos.set idx pos,
                              doors := room.doors.set idx d }
                let nroom2 : Room := { nroom with doors := nroom.doors.set ((idx + 2) % 4) d }
                let st2 := setRoom st i j room2
                let st3 := setRoom st2 nij.1 nij.2 nroom2
                some { st3 with grid := (pos, d) :: st3.grid }
              else none
        else none
    else none

/-- The object-placement block of `Level_parametrized.gen_mission` (lines
1191-1221): a slot whose first field is `-1` is skipped; otherwise the
kind/color dictionaries are consulted, `kind` is asserted to be
key/ball/box, the room is fetched and the object is placed on the grid and
appended to the room's object list. -/
def mkObj3 (kind color : String) : Option WObj :=
  if kind = "key" then some (.key color)
  else if kind = "ball" then some (.ball color)
  else if kind = "box" then some (.box color)
  else none

def objSlotStep (S : Int) (rows cols : Nat) (g : Nat → Int) (s : Nat) (st : GenState) :
    Option GenState :=
  if g s = -1 then some st else
  match lookupIdx IDX_TO_OBJECT (g (s + 2)) with
  | none => none
  | some kind =>
  match lookupIdx IDX_TO_COLOR (g (s + 3)) with
  | none => none
  | some color =>
  match mkObj3 kind color with
  | none => none
  | some obj =>
  match getRoom? st (g s) (g (s + 1)) with
  | none => none
  | some room =>
    let top := roomTop S (g s) (g (s + 1))
    let pos := (g (s + 4) + top.1, g (s + 5) + top.2)
    if inGrid rows cols S pos then
      some { setRoom st (g s) (g (s + 1)) { room with objs := room.objs ++ [obj] } with
             grid := (pos, obj) :: st.grid }
    else none

/-- One door slot of the genome decoder (lines 1226-1261); the first field
`-1` skips the slot. -/
def doorSlotStep (S : Int) (rows cols : Nat) (g : Nat → Int) (s : Nat) (st : GenState) :
    Option GenState :=
  if g s = -1 then some st
  else placeDoor S rows cols st (g s) (g (s + 1)) (g (s + 2))
    (lookupIdx IDX_TO_COLOR (g (s + 3))) (g (s + 4)) (g (s + 5))

/-- Object slots start at offsets 8, 14, ..., 110 (`range(8, 116, 6)`). -/
def objStarts : List Nat := (List.range 18).map (fun n => 8 + 6 * n)

/-- Door slots start at offsets 116, 122, ..., 182 (`range(116, 188, 6)`). -/
def doorStarts : List Nat := (List.range 12).map (fun n => 116 + 6 * n)

/-- Left-to-right run of a fallible placement step over a list, aborting at
the first failure (a raised Python exception aborts the whole loop). -/
def foldOpt {α : Type} (f : α → GenState → Option GenState) :
    List α → GenState → Option GenState
  | [], st => some st
  | a :: rest, st =>
    match f a st with
    | none => none
    | some st2 => foldOpt f rest st2

def decodeObjs (S : Int) (rows cols : Nat) (g : Nat → Int) (st : GenState) : Option GenState :=
  foldOpt (objSlotStep S rows cols g) objStarts st

def decodeDoors (S : Int) (rows cols : Nat) (g : Nat → Int) (st : GenState) : Option GenState :=
  foldOpt (doorSlotStep S rows cols g) doorStarts st

/-- The header clamps of `Level_parametrized.__init__` (lines 1178-1180):
`num_rows = data[0] if data[0] <= 3 else 3`, likewise `num_cols` (max 3)
and `room_size` (max 8). -/
def clampHdr (g : Nat → Int) : Int × Int × Int :=
  ((if g 0 ≤ 3 then g 0 else 3), (if g 1 ≤ 3 then g 1 else 3), (if g 2 ≤ 8 then g 2 else 8))

/-- The genome decoder up to (and excluding) the RNG-driven instruction
choice at `data[188]`: header clamps, agent placement (lines 1185-1188),
object slots, door slots.  `RoomGrid` construction requires positive
dimensions and `room_size ≥ 3`. -/
def decodeWorld (g : Nat → Int) : Option GenState :=
  let nr := (clampHdr g).1
  let nc := (clampHdr g).2.1
  let S := (clampHdr g).2.2
  if 0 < nr ∧ 0 < nc ∧ 3 ≤ S then
    let st0 := initState nr.toNat nc.toNat
    match getRoom? st0 (g 3) (g 4) with
    | none => none
    | some _ =>
      let top := roomTop S (g 3) (g 4)
      let st1 := { st0 with agentPos := some (top.1 + g 5, top.2 + g 6), agentDir := g 7 }
      match decodeObjs S nr.toNat nc.toNat g st1 with
      | none => none
      | some st2 => decodeDoors S nr.toNat nc.toNat g st2
  else none

/-- A door record of the declarative JSON mission format (room coords,
side index, color, locked flag, local offset). -/
structure DoorEntry where
  di : Int
  dj : Int
  idx : Int
  color : Option String
  locked : Int
  off : Int
deriving DecidableEq, Repr

def doorEntryStep (S : Int) (rows cols : Nat) (e : DoorEntry) (st : GenState) :
    Option GenState :=
  placeDoor S rows cols st e.di e.dj e.idx e.color e.locked e.off

/-- The door loop of `Level_JSON.gen_mission` over a list of door records
(lines 1082-1116). -/
def foldDoorEntries (S : Int) (rows cols : Nat) (entries : List DoorEntry) (st : GenState) :
    Option GenState :=
  foldOpt (doorEntryStep S rows cols) entries st

/-- The door table entry of the room at `(i, j)` in direction `idx`. -/
def doorAt (st : GenState) (i j idx : Int) : Option WObj :=
  match getRoom? st i j with
  | none => none
  | some r => r.doors.get idx

theorem setRoom_grid (st : GenState) (i j : Int) (r : Room) :
    (setRoom st i j r).grid = st.grid := rfl

theorem getRoom?_setRoom (st : GenState) (i j : Int) (r : Room) (x y : Int) :
    getRoom? (setRoom st i j r) x y = getRoomG (setRoomG st.rooms i j r) x y := rfl

theorem getRoom?_grid_update (st : GenState) (G : List ((Int × Int) × WObj)) (i j : Int) :
    getRoom? { st with grid := G } i j = getRoom? st i j := rfl

theorem getRoomG_nonneg {rs : List (List Room)} {i j : Int} {r : Room}
    (h : getRoomG rs i j = some r) : 0 ≤ i ∧ 0 ≤ j := by
  unfold getRoomG at h
  by_cases hp : 0 ≤ i ∧ 0 ≤ j
  · exact hp
  · rw [if_neg hp] at h; cases h

theorem getRoomG_set_self {rs : List (List Room)} {i j : Int} {r0 : Room} (r : Room)
    (h : getRoomG rs i j = some r0) :
    getRoomG (setRoomG rs i j r) i j = some r := by
  obtain ⟨hi, hj⟩ := getRoomG_nonneg h
  unfold getRoomG at h ⊢
  rw [if_pos ⟨hi, hj⟩] at h ⊢
  unfold setRoomG
  cases hrow : rs.get? j.toNat with
  | none =>
    simp only [hrow] at h
    exact Option.noConfusion h
  | some row =>
    simp only [hrow] at h ⊢
    have hjlt : j.toNat < rs.length := by
      rcases List.get?_eq_some.mp hrow with ⟨hlt, _⟩; exact hlt
    have hilt : i.toNat < row.length := by
      rcases List.get?_eq_some.mp h with ⟨hlt, _⟩; exact hlt
    rw [lget_set_eq _ _ _ hjlt]
    exact lget_set_eq _ _ _ hilt

theorem getRoomG_set_other {rs : List (List Room)} {i j : Int} {r0 : Room} (r : Room)
    (h : getRoomG rs i j = some r0) {x y : Int} (hne : ¬(x = i ∧ y = j)) :
    getRoomG (setRoomG rs i j r) x y = getRoomG rs x y := by
  obtain ⟨hi, hj⟩ := getRoomG_nonneg h
  unfold getRoomG at h ⊢
  rw [if_pos ⟨hi, hj⟩] at h
  by_cases hp : 0 ≤ x ∧ 0 ≤ y
  · rw [if_pos hp, if_pos hp]
    unfold setRoomG
    cases hrow : rs.get? j.toNat with
    | none =>
    simp only [hrow] at h
    exact Option.noConfusion h
    | some row =>
      simp only [hrow] at h ⊢
      have hjlt : j.toNat < rs.length := by
        rcases List.get?_eq_some.mp hrow with ⟨hlt, _⟩; exact hlt
      by_cases hy : y = j
      · subst hy
        have hx : x ≠ i := fun hx => hne ⟨hx, rfl⟩
        rw [lget_set_eq _ _ _ hjlt, hrow]
        exact lget_set_ne _ _ _ _ (by omega)
      · rw [lget_set_ne _ _ _ _ (by omega)]
  · rw [if_neg hp, if_neg hp]

theorem neighbor_ne (i j idx : Int) :
    ¬((neighborIdx i j idx).1 = i ∧ (neighborIdx i j idx).2 = j) := by
  unfold neighborIdx
  split_ifs <;> rintro ⟨h1, h2⟩ <;> simp at h1 h2 <;> omega

/-- Inversion of a successful `placeDoor`: all guards held and the result
state is the two-room update with one new grid entry. -/
theorem placeDoor_some_parts {S : Int} {rows cols : Nat} {st : GenState}
    {i j idx : Int} {c? : Option String} {lk off : Int} {st2 : GenState}
    (h : placeDoor S rows cols st i j idx c? lk off = some st2) :
    ∃ c room nroom,
      c? = some c ∧ c ∈ IDX_TO_COLOR ∧ getRoom? st i j = some room ∧
      (0 ≤ idx ∧ idx < 4) ∧ room.doors.get idx = none ∧
      getRoom? st (neighborIdx i j idx).1 (neighborIdx i j idx).2 = some nroom ∧
      inGrid rows cols S (doorPosOf S i j idx off) ∧
      st2 = { setRoom (setRoom st i j
                { room with lockedFlag := lk,
                            doorPos := room.doorPos.set idx (doorPosOf S i j idx off),
                            doors := room.doors.set idx (WObj.door c lk) })
              (neighborIdx i j idx).1 (neighborIdx i j idx).2
              { nroom with doors := nroom.doors.set ((idx + 2) % 4) (WObj.door c lk) }
              with grid := (doorPosOf S i j idx off, WObj.door c lk) :: st.grid } := by
  cases c? with
  | none => simp [placeDoor] at h
  | some c =>
    simp only [placeDoor] at h
    by_cases hcm : c ∈ IDX_TO_COLOR
    · rw [if_pos hcm] at h
      cases hr : getRoom? st i j with
      | none => simp only [hr] at h; exact Option.noConfusion h
      | some room =>
        simp only [hr] at h
        by_cases hb : 0 ≤ idx ∧ idx < 4
        · rw [if_pos hb] at h
          cases hdg : room.doors.get idx with
          | some d0 => simp only [hdg] at h; exact Option.noConfusion h
          | none =>
            simp only [hdg] at h
            cases hn : getRoom? st (neighborIdx i j idx).1 (neighborIdx i j idx).2 with
            | none => simp only [hn] at h; exact Option.noConfusion h
            | some nroom =>
              simp only [hn] at h
              by_cases hig : inGrid rows cols S (doorPosOf S i j idx off)
              · rw [if_pos hig] at h
                injection h with h2
                refine ⟨c, room, nroom, rfl, hcm, rfl, hb, hdg, rfl, hig, ?_⟩
                rw [← h2]
                rfl
              · rw [if_neg hig] at h; cases h
        · rw [if_neg hb] at h; cases h
    · rw [if_neg hcm] at h; cases h

theorem mod4_bounds (idx : Int) : 0 ≤ (idx + 2) % 4 ∧ (idx + 2) % 4 < 4 :=
  ⟨Int.emod_nonneg _ (by norm_num), Int.emod_lt_of_pos _ (by norm_num)⟩

/-- A successful `placeDoor` adds exactly one grid entry and registers the
same door value in the room at `idx` and in the neighbor at
`(idx + 2) % 4`. -/
theorem placeDoor_doorAt_set {S : Int} {rows cols : Nat} {st : GenState}
    {i j idx : Int} {c? : Option String} {lk off : Int} {st2 : GenState}
    (h : placeDoor S rows cols st i j idx c? lk off = some st2) :
    ∃ c, st2.grid = (doorPosOf S i j idx off, WObj.door c lk) :: st.grid ∧
      doorAt st2 i j idx = some (WObj.door c lk) ∧
      doorAt st2 (neighborIdx i j idx).1 (neighborIdx i j idx).2 ((idx + 2) % 4) =
        some (WObj.door c lk) := by
  obtain ⟨c, room, nroom, _, _, hr, hb, _, hn, _, hst⟩ := placeDoor_some_parts h
  subst hst
  set room2 : Room :=
    { room with lockedFlag := lk,
                doorPos := room.doorPos.set idx (doorPosOf S i j idx off),
                doors := room.doors.set idx (WObj.door c lk) } with hroom2
  set nroom2 : Room :=
    { nroom with doors := nroom.doors.set ((idx + 2) % 4) (WObj.door c lk) } with hnroom2
  have hrG : getRoomG (setRoomG st.rooms i j room2) i j = some room2 :=
    getRoomG_set_self _ hr
  have hnG : getRoomG (setRoomG st.rooms i j room2)
      (neighborIdx i j idx).1 (neighborIdx i j idx).2 = some nroom := by
    rw [getRoomG_set_other _ hr (neighbor_ne i j idx)]
    exact hn
  refine ⟨c, rfl, ?_, ?_⟩
  · show (match getRoomG (setRoomG (setRoomG st.rooms i j room2)
        (neighborIdx i j idx).1 (neighborIdx i j idx).2 nroom2) i j with
      | none => none
      | some r => r.doors.get idx) = some (WObj.door c lk)
    rw [getRoomG_set_other _ hnG
      (fun hc => neighbor_ne i j idx ⟨hc.1.symm, hc.2.symm⟩)]
    rw [hrG]
    show (room.doors.set idx (WObj.door c lk)).get idx = some (WObj.door c lk)
    rw [Slots4.get_set, if_pos ⟨rfl, hb⟩]
  · show (match getRoomG (setRoomG (setRoomG st.rooms i j room2)
        (neighborIdx i j idx).1 (neighborIdx i j idx).2 nroom2)
        (neighborIdx i j idx).1 (neighborIdx i j idx).2 with
      | none => none
      | some r => r.doors.get ((idx + 2) % 4)) = some (WObj.door c lk)
    rw [getRoomG_set_self _ hnG]
    show (nroom.doors.set ((idx + 2) % 4) (WObj.door c lk)).get ((idx + 2) % 4) =
      some (WObj.door c lk)
    rw [Slots4.get_set, if_pos ⟨rfl, mod4_bounds idx⟩]

/-- A successful `placeDoor` requires its target slot to be free. -/
theorem placeDoor_requires_free {S : Int} {rows cols : Nat} {st : GenState}
    {i j idx : Int} {c? : Option String} {lk off : Int} {st2 : GenState}
    (h : placeDoor S rows cols st i j idx c? lk off = some st2) :
    doorAt st i j idx = none := by
  obtain ⟨c, room, nroom, _, _, hr, _, hdg, _, _, _⟩ := placeDoor_some_parts h
  show (match getRoom? st i j with
    | none => none
    | some r => r.doors.get idx) = none
  rw [hr]
  exact hdg

/-- `placeDoor` never clears an occupied door slot: any slot holding a door
before still holds a door after. -/
theorem placeDoor_doorAt_preserved {S : Int} {rows cols : Nat} {st : GenState}
    {i j idx : Int} {c? : Option String} {lk off : Int} {st2 : GenState}
    (h : placeDoor S rows cols st i j idx c? lk off = some st2)
    {x y z : Int} {d : WObj} (hd : doorAt st x y z = some d) :
    ∃ d2, doorAt st2 x y z = some d2 := by
  obtain ⟨c, room, nroom, _, _, hr, hb, hdg, hn, _, hst⟩ := placeDoor_some_parts h
  subst hst
  set room2 : Room :=
    { room with lockedFlag := lk,
                doorPos := room.doorPos.set idx (doorPosOf S i j idx off),
                doors := room.doors.set idx (WObj.door c lk) } with hroom2
  set nroom2 : Room :=
    { nroom with doors := nroom.doors.set ((idx + 2) % 4) (WObj.door c lk) } with hnroom2
  have hrG : getRoomG (setRoomG st.rooms i j room2) i j = some room2 :=
    getRoomG_set_self _ hr
  have hnG : getRoomG (setRoomG st.rooms i j room2)
      (neighborIdx i j idx).1 (neighborIdx i j idx).2 = some nroom := by
    rw [getRoomG_set_other _ hr (neighbor_ne i j idx)]
    exact hn
  have hd2 : (match getRoomG st.rooms x y with
      | none => none
      | some r => r.doors.get z) = some d := hd
  show ∃ d2, (match getRoomG (setRoomG (setRoomG st.rooms i j room2)
      (neighborIdx i j idx).1 (neighborIdx i j idx).2 nroom2) x y with
    | none => none
    | some r => r.doors.get z) = some d2
  by_cases hxyn : x = (neighborIdx i j idx).1 ∧ y = (neighborIdx i j idx).2
  · obtain ⟨rfl, rfl⟩ := hxyn
    rw [getRoomG_set_self _ hnG]
    show ∃ d2, (nroom.doors.set ((idx + 2) % 4) (WObj.door c lk)).get z = some d2
    rw [Slots4.get_set]
    by_cases hz : (idx + 2) % 4 = z ∧ 0 ≤ (idx + 2) % 4 ∧ (idx + 2) % 4 < 4
    · rw [if_pos hz]; exact ⟨_, rfl⟩
    · rw [if_neg hz]
      rw [show getRoomG st.rooms (neighborIdx i j idx).1 (neighborIdx i j idx).2 = some nroom
        from hn] at hd2
      exact ⟨d, hd2⟩
  · rw [getRoomG_set_other _ hnG hxyn]
    by_cases hxy : x = i ∧ y = j
    · obtain ⟨rfl, rfl⟩ := hxy
      rw [hrG]
      show ∃ d2, (room.doors.set idx (WObj.door c lk)).get z = some d2
      rw [Slots4.get_set]
      by_cases hz : idx = z ∧ 0 ≤ idx ∧ idx < 4
      · rw [if_pos hz]; exact ⟨_, rfl⟩
      · rw [if_neg hz]
        rw [show getRoomG st.rooms x y = some room from hr] at hd2
        exact ⟨d, hd2⟩
    · rw [getRoomG_set_other _ hr hxy]
      cases hq : getRoomG st.rooms x y with
      | none => rw [hq] at hd2; exact Option.noConfusion hd2
      | some r =>
        rw [hq] at hd2
        exact ⟨d, hd2⟩

theorem foldOpt_append {α : Type} (f : α → GenState → Option GenState) :
    ∀ (A B : List α) (st : GenState),
      foldOpt f (A ++ B) st =
        match foldOpt f A st with
        | none => none
        | some st2 => foldOpt f B st2 := by
  intro A
  induction A with
  | nil => intro B st; rfl
  | cons a rest ih =>
    intro B st
    show (match f a st with
      | none => none
      | some st2 => foldOpt f (rest ++ B) st2) =
      match (match f a st with
        | none => none
        | some st2 => foldOpt f rest st2) with
      | none => none
      | some st2 => foldOpt f B st2
    cases hstep : f a st with
    | none => rfl
    | some st2 => exact ih B st2

theorem foldOpt_fails {α : Type} (f : α → GenState → Option GenState) :
    ∀ (l : List α) (st : GenState) (a : α), a ∈ l → (∀ st2, f a st2 = none) →
      foldOpt f l st = none := by
  intro l
  induction l with
  | nil => intro st a ha _; cases ha
  | cons b rest ih =>
    intro st a ha hnone
    show (match f b st with
      | none => none
      | some st2 => foldOpt f rest st2) = none
    rcases List.mem_cons.mp ha with hb | hb
    · subst hb
      rw [hnone st]
    · cases hstep : f b st with
      | none => rfl
      | some st2 => exact ih st2 a hb hnone

/-- Generic blocked-slot lemma: if the door slot `(x, y, z)` is already
occupied, any placement run whose list contains a step that requires that
slot to be free fails. -/
theorem foldOpt_blocked {α : Type} (f : α → GenState → Option GenState) (P : α → Prop)
    (x y z : Int)
    (hfree : ∀ a st st2, P a → f a st = some st2 → doorAt st x y z = none)
    (hpres : ∀ a st st2 x2 y2 z2 d, f a st = some st2 → doorAt st x2 y2 z2 = some d →
      ∃ d2, doorAt st2 x2 y2 z2 = some d2) :
    ∀ (l : List α) (st : GenState), doorAt st x y z ≠ none → (∃ a ∈ l, P a) →
      foldOpt f l st = none := by
  intro l
  induction l with
  | nil => intro st _ hmem; obtain ⟨a, ha, _⟩ := hmem; cases ha
  | cons b rest ih =>
    intro st hocc hmem
    show (match f b st with
      | none => none
      | some st2 => foldOpt f rest st2) = none
    cases hstep : f b st with
    | none => rfl
    | some st2 =>
      obtain ⟨a, hamem, hPa⟩ := hmem
      rcases List.mem_cons.mp hamem with hab | harest
      · subst hab
        exact absurd (hfree a st st2 hPa hstep) hocc
      · cases hday : doorAt st x y z with
        | none => exact absurd hday hocc
        | some d =>
          obtain ⟨d2, hd2⟩ := hpres b st st2 x y z d hstep hday
          refine ih st2 ?_ ⟨a, harest, hPa⟩
          rw [hd2]
          exact fun hc => Option.noConfusion hc

/-- `doorSlotStep` preserves occupied door slots (a skipped slot does not
touch the state at all). -/
theorem doorSlotStep_preserves {S : Int} {rows cols : Nat} {g : Nat → Int} {s : Nat}
    {st st2 : GenState} {x y z : Int} {d : WObj}
    (h : doorSlotStep S rows cols g s st = some st2) (hd : doorAt st x y z = some d) :
    ∃ d2, doorAt st2 x y z = some d2 := by
  unfold doorSlotStep at h
  by_cases hs : g s = -1
  · rw [if_pos hs] at h
    injection h with h2
    subst h2
    exact ⟨d, hd⟩
  · rw [if_neg hs] at h
    exact placeDoor_doorAt_preserved h hd

/-- C6 -- duplicate doors.  (i) JSON path: a door list containing two
entries with the same room and side index fails with the
"door already exists" assertion (the fold returns `none`): the second door
is never placed.  (ii) Genome path: a genome with two active door slots
naming the same room and side index makes the door decoding fail. -/
theorem c6_duplicate_door :
    (∀ (S : Int) (rows cols : Nat) (A B : List DoorEntry) (e1 e2 : DoorEntry) (st : GenState),
      e2.di = e1.di → e2.dj = e1.dj → e2.idx = e1.idx → e2 ∈ B →
      foldDoorEntries S rows cols (A ++ e1 :: B) st = none) ∧
    (∀ (S : Int) (rows cols : Nat) (g : Nat → Int) (st : GenState) (s1 s2 : Nat),
      s1 ∈ doorStarts → s2 ∈ doorStarts → s1 < s2 → g s1 ≠ -1 → g s2 ≠ -1 →
      g s2 = g s1 → g (s2 + 1) = g (s1 + 1) → g (s2 + 2) = g (s1 + 2) →
      decodeDoors S rows cols g st = none) := by
  have hblockedE : ∀ (S : Int) (rows cols : Nat) (x y z : Int) (B : List DoorEntry)
      (st : GenState), doorAt st x y z ≠ none →
      (∃ e ∈ B, e.di = x ∧ e.dj = y ∧ e.idx = z) →
      foldOpt (doorEntryStep S rows cols) B st = none := by
    intro S rows cols x y z B st hocc hmem
    refine foldOpt_blocked (doorEntryStep S rows cols)
      (fun e => e.di = x ∧ e.dj = y ∧ e.idx = z) x y z ?_ ?_ B st hocc hmem
    · intro e st' st2 hP hstep
      obtain ⟨h1, h2, h3⟩ := hP
      have := placeDoor_requires_free hstep
      rw [h1, h2, h3] at this
      exact this
    · intro e st' st2 x2 y2 z2 d hstep hd
      exact placeDoor_doorAt_preserved hstep hd
  constructor
  · intro S rows cols A B e1 e2 st h1 h2 h3 hmem
    unfold foldDoorEntries
    rw [foldOpt_append]
    cases hA : foldOpt (doorEntryStep S rows cols) A st with
    | none => rfl
    | some stA =>
      show (match doorEntryStep S rows cols e1 stA with
        | none => none
        | some st2 => foldOpt (doorEntryStep S rows cols) B st2) = none
      cases hstep : doorEntryStep S rows cols e1 stA with
      | none => rfl
      | some st1 =>
        obtain ⟨c, _, hset, _⟩ := placeDoor_doorAt_set hstep
        refine hblockedE S rows cols e1.di e1.dj e1.idx B st1 ?_ ⟨e2, hmem, h1, h2, h3⟩
        rw [hset]
        exact fun hc => Option.noConfusion hc
  · intro S rows cols g st s1 s2 hs1 hs2 hlt hne1 hne2 k1 k2 k3
    have hsplit : ∃ L1 L2, doorStarts = L1 ++ s1 :: L2 ∧ s2 ∈ L2 := by
      obtain ⟨L1, L2, hL⟩ := List.append_of_mem hs1
      refine ⟨L1, L2, hL, ?_⟩
      have hpw : List.Pairwise (· < ·) doorStarts := by decide
      rw [hL] at hpw hs2
      rcases List.mem_append.mp hs2 with hmem | hmem
      · exfalso
        have := (List.pairwise_append.mp hpw).2.2 s2 hmem s1 (List.mem_cons_self _ _)
        omega
      · rcases List.mem_cons.mp hmem with hmem | hmem
        · exfalso; omega
        · exact hmem
    obtain ⟨L1, L2, hL, hs2L2⟩ := hsplit
    unfold decodeDoors
    rw [hL, foldOpt_append]
    cases hA : foldOpt (doorSlotStep S rows cols g) L1 st with
    | none => rfl
    | some stA =>
      show (match doorSlotStep S rows cols g s1 stA with
        | none => none
        | some st2 => foldOpt (doorSlotStep S rows cols g) L2 st2) = none
      cases hstep : doorSlotStep S rows cols g s1 stA with
      | none => rfl
      | some st1 =>
        have hstepPD : placeDoor S rows cols stA (g s1) (g (s1 + 1)) (g (s1 + 2))
            (lookupIdx IDX_TO_COLOR (g (s1 + 3))) (g (s1 + 4)) (g (s1 + 5)) = some st1 := by
          unfold doorSlotStep at hstep
          rw [if_neg hne1] at hstep
          exact hstep
        obtain ⟨c, _, hset, _⟩ := placeDoor_doorAt_set hstepPD
        refine foldOpt_blocked (doorSlotStep S rows cols g)
          (fun s => g s ≠ -1 ∧ g s = g s1 ∧ g (s + 1) = g (s1 + 1) ∧ g (s + 2) = g (s1 + 2))
          (g s1) (g (s1 + 1)) (g (s1 + 2)) ?_ ?_ L2 st1 ?_ ⟨s2, hs2L2, hne2, k1, k2, k3⟩
        · intro s st' st2 hP hstep2
          obtain ⟨hPne, hk1, hk2, hk3⟩ := hP
          have hstep2PD : placeDoor S rows cols st' (g s) (g (s + 1)) (g (s + 2))
              (lookupIdx IDX_TO_COLOR (g (s + 3))) (g (s + 4)) (g (s + 5)) = some st2 := by
            unfold doorSlotStep at hstep2
            rw [if_neg hPne] at hstep2
            exact hstep2
          have := placeDoor_requires_free hstep2PD
          rw [hk1, hk2, hk3] at this
          exact this
        · intro s st' st2 x2 y2 z2 d hstep2 hd
          exact doorSlotStep_preserves hstep2 hd
        · rw [hset]
          exact fun hc => Option.noConfusion hc

/-- Witness for `c6_duplicate_door` at a concrete mission descriptor with
two doors at room (0,0), side 0. -/
theorem c6_witness :
    foldDoorEntries 5 1 2
      ([] ++ (⟨0, 0, 0, some "red", 0, 2⟩ : DoorEntry) ::
        [(⟨0, 0, 0, some "blue", 0, 3⟩ : DoorEntry)]) (initState 1 2) = none :=
  c6_duplicate_door.1 5 1 2 [] [⟨0, 0, 0, some "blue", 0, 3⟩]
    ⟨0, 0, 0, some "red", 0, 2⟩ ⟨0, 0, 0, some "blue", 0, 3⟩ (initState 1 2)
    rfl rfl rfl (List.mem_singleton.mpr rfl)

/-- C4 -- sentinel slots of the genome decoder.  A slot whose first field is
`-1` is skipped entirely: the step returns the state unchanged (no object
or door, no room-table change, no grid change).  A slot whose first field
is not `-1` and whose step succeeds places exactly one object (one new
grid entry, one object appended to one room) or exactly one door (one new
grid entry, the door registered at the slot's room/side). -/
theorem c4_genome_slot_frame (S : Int) (rows cols : Nat) (g : Nat → Int) (st : GenState)
    (s : Nat) :
    (s ∈ objStarts →
      (g s = -1 → objSlotStep S rows cols g s st = some st) ∧
      (g s ≠ -1 → ∀ st2, objSlotStep S rows cols g s st = some st2 →
        ∃ pos obj room, getRoom? st (g s) (g (s + 1)) = some room ∧
          st2 = { setRoom st (g s) (g (s + 1)) { room with objs := room.objs ++ [obj] } with
                  grid := (pos, obj) :: st.grid })) ∧
    (s ∈ doorStarts →
      (g s = -1 → doorSlotStep S rows cols g s st = some st) ∧
      (g s ≠ -1 → ∀ st2, doorSlotStep S rows cols g s st = some st2 →
        ∃ pos c, st2.grid = (pos, WObj.door c (g (s + 4))) :: st.grid ∧
          doorAt st2 (g s) (g (s + 1)) (g (s + 2)) = some (WObj.door c (g (s + 4))))) := by
  constructor
  · intro _
    constructor
    · intro hs
      unfold objSlotStep
      rw [if_pos hs]
    · intro hne st2 hstep
      unfold objSlotStep at hstep
      rw [if_neg hne] at hstep
      cases hk : lookupIdx IDX_TO_OBJECT (g (s + 2)) with
      | none => simp only [hk] at hstep; exact Option.noConfusion hstep
      | some kind =>
        simp only [hk] at hstep
        cases hc : lookupIdx IDX_TO_COLOR (g (s + 3)) with
        | none => simp only [hc] at hstep; exact Option.noConfusion hstep
        | some color =>
          simp only [hc] at hstep
          cases hm : mkObj3 kind color with
          | none => simp only [hm] at hstep; exact Option.noConfusion hstep
          | some obj =>
            simp only [hm] at hstep
            cases hr : getRoom? st (g s) (g (s + 1)) with
            | none => simp only [hr] at hstep; exact Option.noConfusion hstep
            | some room =>
              simp only [hr] at hstep
              by_cases hig : inGrid rows cols S
                (g (s + 4) + (roomTop S (g s) (g (s + 1))).1,
                 g (s + 5) + (roomTop S (g s) (g (s + 1))).2)
              · rw [if_pos hig] at hstep
                injection hstep with h2
                exact ⟨_, obj, room, rfl, h2.symm⟩
              · rw [if_neg hig] at hstep
                exact Option.noConfusion hstep
  · intro _
    constructor
    · intro hs
      unfold doorSlotStep
      rw [if_pos hs]
    · intro hne st2 hstep
      have hstepPD : placeDoor S rows cols st (g s) (g (s + 1)) (g (s + 2))
          (lookupIdx IDX_TO_COLOR (g (s + 3))) (g (s + 4)) (g (s + 5)) = some st2 := by
        unfold doorSlotStep at hstep
        rw [if_neg hne] at hstep
        exact hstep
      obtain ⟨c, hgrid, hset, _⟩ := placeDoor_doorAt_set hstepPD
      exact ⟨doorPosOf S (g s) (g (s + 1)) (g (s + 2)) (g (s + 5)), c, hgrid, hset⟩

/-- Witness for `c4_genome_slot_frame`: a genome of all `-1` leaves the
state untouched at the first object slot and the first door slot. -/
theorem c4_witness :
    objSlotStep 8 1 1 (fun _ => -1) 8 (initState 1 1) = some (initState 1 1) ∧
    doorSlotStep 8 1 1 (fun _ => -1) 116 (initState 1 1) = some (initState 1 1) :=
  ⟨((c4_genome_slot_frame 8 1 1 (fun _ => -1) (initState 1 1) 8).1 (by decide)).1 rfl,
   ((c4_genome_slot_frame 8 1 1 (fun _ => -1) (initState 1 1) 116).2 (by decide)).1 rfl⟩

/-- An out-of-range integer key fails the dictionary lookup (no clamping,
no Python-list negative wraparound: these are dicts). -/
theorem lookupIdx_out {l : List String} {n : Int} (h : ¬(0 ≤ n ∧ n < (l.length : Int))) :
    lookupIdx l n = none := by
  unfold lookupIdx
  by_cases hnn : 0 ≤ n
  · rw [if_pos hnn]
    apply List.get?_eq_none.mpr
    omega
  · rw [if_neg hnn]

/-- C5 (amended) -- clamping happens only for the three header fields of the
genome (and only from above); an out-of-range type or color index in an
active object slot, or an out-of-range color index in an active door slot,
is NOT clamped: the dictionary lookup fails and the decode aborts instead
of completing. -/
theorem c5_header_clamp_only :
    (∀ g : Nat → Int,
      (3 < g 0 → (clampHdr g).1 = 3) ∧ (g 0 ≤ 3 → (clampHdr g).1 = g 0) ∧
      (3 < g 1 → (clampHdr g).2.1 = 3) ∧ (g 1 ≤ 3 → (clampHdr g).2.1 = g 1) ∧
      (8 < g 2 → (clampHdr g).2.2 = 8) ∧ (g 2 ≤ 8 → (clampHdr g).2.2 = g 2)) ∧
    (∀ (S : Int) (rows cols : Nat) (g : Nat → Int) (st : GenState) (s : Nat),
      s ∈ objStarts → g s ≠ -1 →
      (¬(0 ≤ g (s + 2) ∧ g (s + 2) < 11) ∨ ¬(0 ≤ g (s + 3) ∧ g (s + 3) < 6)) →
      decodeObjs S rows cols g st = none) ∧
    (∀ (S : Int) (rows cols : Nat) (g : Nat → Int) (st : GenState) (s : Nat),
      s ∈ doorStarts → g s ≠ -1 → ¬(0 ≤ g (s + 3) ∧ g (s + 3) < 6) →
      decodeDoors S rows cols g st = none) := by
  refine ⟨?_, ?_, ?_⟩
  · intro g
    refine ⟨?_, ?_, ?_, ?_, ?_, ?_⟩ <;> intro h <;> unfold clampHdr
    · rw [if_neg (by omega)]
    · rw [if_pos h]
    · show (if g 1 ≤ 3 then g 1 else 3) = 3
      rw [if_neg (by omega)]
    · show (if g 1 ≤ 3 then g 1 else 3) = g 1
      rw [if_pos h]
    · show (if g 2 ≤ 8 then g 2 else 8) = 8
      rw [if_neg (by omega)]
    · show (if g 2 ≤ 8 then g 2 else 8) = g 2
      rw [if_pos h]
  · intro S rows cols g st s hmem hne hbad
    refine foldOpt_fails _ objStarts st s hmem ?_
    intro st2
    unfold objSlotStep
    rw [if_neg hne]
    rcases hbad with hkind | hcolor
    · have hk : lookupIdx IDX_TO_OBJECT (g (s + 2)) = none := by
        apply lookupIdx_out
        have hlen : IDX_TO_OBJECT.length = 11 := rfl
        rw [hlen]
        exact_mod_cast hkind
      simp only [hk]
    · have hc : lookupIdx IDX_TO_COLOR (g (s + 3)) = none := by
        apply lookupIdx_out
        have hlen : IDX_TO_COLOR.length = 6 := rfl
        rw [hlen]
        exact_mod_cast hcolor
      cases hk : lookupIdx IDX_TO_OBJECT (g (s + 2)) with
      | none => rfl
      | some kind => simp only [hc]
  · intro S rows cols g st s hmem hne hcolor
    refine foldOpt_fails _ doorStarts st s hmem ?_
    intro st2
    unfold doorSlotStep
    rw [if_neg hne]
    have hc : lookupIdx IDX_TO_COLOR (g (s + 3)) = none := by
      apply lookupIdx_out
      have hlen : IDX_TO_COLOR.length = 6 := rfl
      rw [hlen]
      exact_mod_cast hcolor
    rw [hc]
    rfl

/-- C5 counterexample: a genome whose only active object slot has color
index 6 (out of the 0..5 range).  The decoder does not clamp it; the whole
decode fails instead of completing. -/
def gColorCtr : Nat → Int := fun n =>
  if n = 0 then 1 else if n = 1 then 1 else if n = 2 then 8
  else if n = 3 then 0 else if n = 4 then 0
  else if n = 8 then 0 else if n = 9 then 0 else if n = 10 then 5 else if n = 11 then 6
  else -1

theorem c5_counterexample :
    gColorCtr 11 = 6 ∧ decodeWorld gColorCtr = none := by
  constructor
  · rfl
  · rfl

/-- A genome whose only active door slot (first door slot, offset 116) has
color index 7, out of the 0..5 range. -/
def gDoorCtr : Nat → Int := fun n =>
  if n = 116 then 0 else if n = 117 then 1 else if n = 118 then 1
  else if n = 119 then 7 else if n = 120 then 0 else if n = 121 then 2
  else -1

/-- Witness for `c5_header_clamp_only`: the out-of-range color index 6 in an
object slot makes the object decode fail, and the out-of-range color index 7
in a door slot makes the door decode fail. -/
theorem c5_witness :
    decodeObjs 8 1 1 gColorCtr (initState 1 1) = none ∧
    decodeDoors 8 1 1 gDoorCtr (initState 1 1) = none :=
  ⟨c5_header_clamp_only.2.1 8 1 1 gColorCtr (initState 1 1) 8 (by decide) (by decide)
      (Or.inr (by decide)),
   c5_header_clamp_only.2.2 8 1 1 gDoorCtr (initState 1 1) 116 (by decide) (by decide)
      (by decide)⟩

/-- C9 (code bug evidence) -- placing a door with `door_idx = 2` (left
wall) from room (1,0) of a 1x2 room grid with `room_size = 5`: the door is
registered in both rooms (at complementary indices 2 and 0) and written to
the grid, but the chosen cell is `(top.x + 1, top.y + off) = (5, 2)`, one
cell INSIDE the room, while the shared wall between rooms (0,0) and (1,0)
is the column `x = 4` (`roomTop 5 1 0 = (4, 0)`; the code uses
`x_l = top.x + 1` where the wall is at `top.x`). -/
theorem c9_door_cell_off_wall :
    (placeDoor 5 1 2 (initState 1 2) 1 0 2 (some "red") 0 2).map
        (fun st => (st.grid, doorAt st 1 0 2, doorAt st 0 0 0)) =
      some ([((5, 2), WObj.door "red" 0)],
        some (WObj.door "red" 0), some (WObj.door "red" 0)) ∧
    (roomTop 5 1 0).1 = 4 ∧ ((5 : Int) ≠ 4) := by
  refine ⟨?_, rfl, by decide⟩
  rfl

/-!
## `Level_GoToRedBlueBall.gen_mission` over an explicit RNG stream

The level (bonus_levels.py lines 25-41) runs in a single 8x8 room (1x1
room grid).  The helper primitives (`_rand_int`, `_rand_elem`,
`place_agent`, `add_distractors`, `add_object`, `check_objs_reachable`)
live in the levelgen module, which is not under src/: they are modelled
from the spec (section 4.1/4.3): every random choice consumes the single
generator stream (`Nat → Nat`), placement retries are bounded (fuel 1000,
failing loudly on exhaustion), and reachability is a BFS over open cells
from the agent, objects being reachable but not traversable.  Python's
`RejectSampling` is the `GErr.reject` error. -/

/-- Generation-time errors: `reject` is `RejectSampling`. -/
inductive GErr where
  | reject (msg : String)
  | placeFail
  | bad
deriving DecidableEq, Repr

/-- A generation computation: reads the RNG stream and the current stream
index; returns a value and the advanced index, or an error. -/
def GenM (α : Type) : Type := (Nat → Nat) → Nat → Except GErr (α × Nat)

def GenM.pure {α : Type} (a : α) : GenM α := fun _ k => .ok (a, k)

def GenM.bind {α β : Type} (m : GenM α) (f : α → GenM β) : GenM β := fun g k =>
  match m g k with
  | .error e => .error e
  | .ok (a, k2) => f a g k2

def GenM.throw {α : Type} (e : GErr) : GenM α := fun _ _ => .error e

/-- `_rand_int(lo, hi)`: one draw from the stream, mapped into `[lo, hi)`. -/
def randInt (lo hi : Int) : GenM Int := fun g k =>
  if lo < hi then .ok (lo + (Int.ofNat (g k)) % (hi - lo), k + 1) else .error .bad

def getElemM {α : Type} (l : List α) (i : Int) : GenM α := fun _ k =>
  match l.get? i.toNat with
  | some a => .ok (a, k)
  | none => .error .bad

/-- `_rand_elem`: uniform element of a list (one draw). -/
def randElem {α : Type} (l : List α) : GenM α :=
  GenM.bind (randInt 0 l.length) (getElemM l)

/-- An object of this level's world. -/
structure BObj where
  kind : String
  color : String
  pos : Int × Int
deriving DecidableEq, Repr

/-- World state of the single-room level: agent position/direction and the
placed objects in placement order. -/
structure BState where
  agentPos : Int × Int
  agentDir : Int
  objs : List BObj
deriving DecidableEq, Repr

/-- Interior (non-wall) cells of the 8x8 room. -/
def interiorB (p : Int × Int) : Bool :=
  decide (1 ≤ p.1) && decide (p.1 ≤ 6) && decide (1 ≤ p.2) && decide (p.2 ≤ 6)

/-- A cell is free for placement: interior, no object, not the agent. -/
def isFreeB (st : BState) (p : Int × Int) : Bool :=
  interiorB p && st.objs.all (fun o => decide (o.pos ≠ p)) && decide (p ≠ st.agentPos)

/-- `place_obj`: sample cells of the room until a free one is found;
bounded retries (PlacementExhausted on exhaustion). -/
def placeObjLoop (free : Int × Int → Bool) : Nat → GenM (Int × Int)
  | 0 => GenM.throw .placeFail
  | fuel + 1 =>
    GenM.bind (randInt 0 8) (fun x =>
    GenM.bind (randInt 0 8) (fun y =>
    if free (x, y) then GenM.pure (x, y) else placeObjLoop free fuel))

/-- `place_agent()`: random room column/row draws (trivial for the 1x1
grid but consumed from the stream), then a free cell and a direction. -/
def placeAgent : GenM BState :=
  GenM.bind (randInt 0 1) (fun _ =>
  GenM.bind (randInt 0 1) (fun _ =>
  GenM.bind (placeObjLoop interiorB 1000) (fun p =>
  GenM.bind (randInt 0 4) (fun d =>
  GenM.pure ⟨p, d, []⟩))))

/-- `add_object(0, 0, kind, color)`: place one object at a free cell and
append it to the room's object list. -/
def addObjectAt (kind color : String) (st : BState) : GenM BState :=
  GenM.bind (placeObjLoop (isFreeB st) 1000) (fun p =>
  GenM.pure { st with objs := st.objs ++ [⟨kind, color, p⟩] })

/-- `add_distractors(num_distractors, all_unique=False)`: per distractor a
color draw, a type draw, the room column/row draws, then a placement; the
distractors are returned in placement order. -/
def addDistractors : Nat → BState → GenM (BState × List BObj)
  | 0, st => GenM.pure (st, [])
  | n + 1, st =>
    GenM.bind (randElem COLOR_NAMES) (fun c =>
    GenM.bind (randElem ["key", "ball", "box"]) (fun t =>
    GenM.bind (randInt 0 1) (fun _ =>
    GenM.bind (randInt 0 1) (fun _ =>
    GenM.bind (placeObjLoop (isFreeB st) 1000) (fun p =>
    GenM.bind (addDistractors n { st with objs := st.objs ++ [⟨t, c, p⟩] }) (fun r =>
    GenM.pure (r.1, (⟨t, c, p⟩ : BObj) :: r.2)))))))

/-- The rejection condition of the source (lines 31-33): a distractor that
is a blue or red ball. -/
def badDist (o : BObj) : Bool := o.kind == "ball" && (o.color == "blue" || o.color == "red")

/-- The distractor check loop of `gen_mission` (raises `RejectSampling`
when some distractor is a blue or red ball). -/
def checkDists (ds : List BObj) : GenM Unit :=
  if ds.any badDist then GenM.throw (.reject "can only have one blue or red ball")
  else GenM.pure ()

/-- DFS worklist of `check_objs_reachable`: open interior cells are
traversable, object cells are reachable but not traversable. -/
def bfsAux (occ : List (Int × Int)) :
    Nat → List (Int × Int) → List (Int × Int) → List (Int × Int)
  | 0, _, vis => vis
  | _ + 1, [], vis => vis
  | fuel + 1, p :: stack, vis =>
    if vis.contains p then bfsAux occ fuel stack vis
    else if interiorB p then
      if occ.contains p then bfsAux occ fuel stack (p :: vis)
      else bfsAux occ fuel
        ((p.1 + 1, p.2) :: (p.1 - 1, p.2) :: (p.1, p.2 + 1) :: (p.1, p.2 - 1) :: stack)
        (p :: vis)
    else bfsAux occ fuel stack vis

/-- Cells reachable from the agent. -/
def reachSet (st : BState) : List (Int × Int) :=
  bfsAux (st.objs.map (fun o => o.pos)) 400 [st.agentPos] []

/-- `check_objs_reachable()`: every placed object must be reachable, else
`RejectSampling('unreachable object')`. -/
def checkReach (st : BState) : GenM Unit :=
  if st.objs.all (fun o => (reachSet st).contains o.pos) then GenM.pure ()
  else GenM.throw (.reject "unreachable object")

/-- `place_agent()` followed by `add_distractors(7, all_unique=False)`
(lines 26-28). -/
def distStage : GenM (BState × List BObj) :=
  GenM.bind placeAgent (fun st0 => addDistractors 7 st0)

/-- `Level_GoToRedBlueBall.gen_mission` (lines 25-41): agent, seven
distractors, the red/blue-ball rejection loop, the goal ball of a random
red/blue color, the reachability check, and the `GoTo` instruction. -/
def genMissionGTRBB : GenM (BState × Instr) :=
  GenM.bind distStage (fun p =>
  GenM.bind (checkDists p.2) (fun _ =>
  GenM.bind (randElem ["red", "blue"]) (fun c =>
  GenM.bind (addObjectAt "ball" c p.1) (fun st2 =>
  GenM.bind (checkReach st2) (fun _ =>
  GenM.pure (st2, Instr.goto ⟨some "ball", some c, none⟩))))))

/-- `m` consumes at most `c` stream values (its final index stays within
`[k, k + c]`) and its result depends only on the stream values in
`[k, k + c)`: no random choice outside the single generator stream. -/
def GoodM {α : Type} (m : GenM α) (c : Nat) : Prop :=
  (∀ g k a k2, m g k = .ok (a, k2) → k ≤ k2 ∧ k2 ≤ k + c) ∧
  (∀ g g2 k, (∀ n, k ≤ n → n < k + c → g n = g2 n) → m g k = m g2 k)

theorem goodM_pure {α : Type} (a : α) (c : Nat) : GoodM (GenM.pure a) c := by
  constructor
  · intro g k a2 k2 h
    injection h with h2
    injection h2 with h3 h4
    omega
  · intro g g2 k _
    rfl

theorem goodM_throw {α : Type} (e : GErr) (c : Nat) : GoodM (GenM.throw e : GenM α) c := by
  constructor
  · intro g k a2 k2 h
    exact Except.noConfusion h
  · intro g g2 k _
    rfl

theorem goodM_randInt (lo hi : Int) : GoodM (randInt lo hi) 1 := by
  constructor
  · intro g k a k2 h
    unfold randInt at h
    by_cases hlt : lo < hi
    · rw [if_pos hlt] at h
      injection h with h2
      injection h2 with h3 h4
      omega
    · rw [if_neg hlt] at h
      exact Except.noConfusion h
  · intro g g2 k hagree
    unfold randInt
    rw [hagree k (le_refl k) (by omega)]

theorem goodM_getElemM {α : Type} (l : List α) (i : Int) (c : Nat) :
    GoodM (getElemM l i) c := by
  constructor
  · intro g k a k2 h
    unfold getElemM at h
    cases hg : l.get? i.toNat with
    | none => rw [hg] at h; exact Except.noConfusion h
    | some a2 =>
      rw [hg] at h
      injection h with h2
      injection h2 with h3 h4
      omega
  · intro g g2 k _
    rfl

theorem goodM_bind {α β : Type} {m : GenM α} {f : α → GenM β} {c1 c2 : Nat}
    (hm : GoodM m c1) (hf : ∀ a, GoodM (f a) c2) : GoodM (GenM.bind m f) (c1 + c2) := by
  constructor
  · intro g k b k3 h
    unfold GenM.bind at h
    cases hmk : m g k with
    | error e => rw [hmk] at h; exact Except.noConfusion h
    | ok p =>
      obtain ⟨a, k2⟩ := p
      rw [hmk] at h
      have h1 := hm.1 g k a k2 hmk
      have h2 := (hf a).1 g k2 b k3 h
      omega
  · intro g g2 k hagree
    have hm2 : m g k = m g2 k := hm.2 g g2 k (fun n h1 h2 => hagree n h1 (by omega))
    show (match m g k with
      | .error e => (.error e : Except GErr (β × Nat))
      | .ok (a, k2) => f a g k2) =
      (match m g2 k with
      | .error e => (.error e : Except GErr (β × Nat))
      | .ok (a, k2) => f a g2 k2)
    rw [hm2]
    cases hmk : m g2 k with
    | error e => rfl
    | ok p =>
      obtain ⟨a, k2⟩ := p
      have h1 := hm.1 g2 k a k2 (hm2 ▸ hmk)
      exact (hf a).2 g g2 k2 (fun n hn1 hn2 => hagree n (by omega) (by omega))

theorem goodM_mono {α : Type} {m : GenM α} {c1 c2 : Nat} (h : GoodM m c1) (hc : c1 ≤ c2) :
    GoodM m c2 := by
  constructor
  · intro g k a k2 hm
    have := h.1 g k a k2 hm
    omega
  · intro g g2 k hagree
    exact h.2 g g2 k (fun n h1 h2 => hagree n h1 (by omega))

theorem goodM_ite {α : Type} (cond : Prop) [Decidable cond] {m1 m2 : GenM α} {c : Nat}
    (h1 : GoodM m1 c) (h2 : GoodM m2 c) : GoodM (if cond then m1 else m2) c := by
  by_cases h : cond
  · rw [if_pos h]; exact h1
  · rw [if_neg h]; exact h2

theorem goodM_randElem {α : Type} (l : List α) : GoodM (randElem l) 1 :=
  goodM_bind (goodM_randInt 0 l.length) (fun i => goodM_getElemM l i 0)

theorem goodM_placeObjLoop (free : Int × Int → Bool) :
    ∀ fuel : Nat, GoodM (placeObjLoop free fuel) (2 * fuel) := by
  intro fuel
  induction fuel with
  | zero => exact goodM_throw GErr.placeFail 0
  | succ n ih =>
    have h : GoodM (placeObjLoop free (n + 1)) (1 + (1 + 2 * n)) := by
      refine goodM_bind (goodM_randInt 0 8) (fun x => ?_)
      refine goodM_bind (goodM_randInt 0 8) (fun y => ?_)
      exact goodM_ite _ (goodM_pure (x, y) (2 * n)) ih
    exact goodM_mono h (by omega)

theorem goodM_placeAgent : GoodM placeAgent 2003 := by
  have h : GoodM placeAgent (1 + (1 + (2 * 1000 + (1 + 0)))) := by
    refine goodM_bind (goodM_randInt 0 1) (fun _ => ?_)
    refine goodM_bind (goodM_randInt 0 1) (fun _ => ?_)
    refine goodM_bind (goodM_placeObjLoop interiorB 1000) (fun p => ?_)
    refine goodM_bind (goodM_randInt 0 4) (fun d => ?_)
    exact goodM_pure _ 0
  exact goodM_mono h (by omega)

theorem goodM_addObjectAt (kind color : String) (st : BState) :
    GoodM (addObjectAt kind color st) 2000 := by
  have h : GoodM (addObjectAt kind color st) (2 * 1000 + 0) :=
    goodM_bind (goodM_placeObjLoop _ 1000) (fun p => goodM_pure _ 0)
  exact goodM_mono h (by omega)

theorem goodM_addDistractors :
    ∀ (n : Nat) (st : BState), GoodM (addDistractors n st) (n * 2004) := by
  intro n
  induction n with
  | zero => intro st; exact goodM_pure _ 0
  | succ m ih =>
    intro st
    have h : GoodM (addDistractors (m + 1) st)
        (1 + (1 + (1 + (1 + (2 * 1000 + (m * 2004 + 0)))))) := by
      refine goodM_bind (goodM_randElem COLOR_NAMES) (fun c => ?_)
      refine goodM_bind (goodM_randElem ["key", "ball", "box"]) (fun t => ?_)
      refine goodM_bind (goodM_randInt 0 1) (fun _ => ?_)
      refine goodM_bind (goodM_randInt 0 1) (fun _ => ?_)
      refine goodM_bind (goodM_placeObjLoop _ 1000) (fun p => ?_)
      refine goodM_bind (ih _) (fun r => ?_)
      exact goodM_pure _ 0
    exact goodM_mono h (by omega)

theorem goodM_checkDists (ds : List BObj) : GoodM (checkDists ds) 0 := by
  unfold checkDists
  exact goodM_ite _ (goodM_throw _ 0) (goodM_pure _ 0)

theorem goodM_checkReach (st : BState) : GoodM (checkReach st) 0 := by
  unfold checkReach
  exact goodM_ite _ (goodM_pure _ 0) (goodM_throw _ 0)

theorem goodM_distStage : GoodM distStage 16031 := by
  have h : GoodM distStage (2003 + 7 * 2004) :=
    goodM_bind goodM_placeAgent (fun st0 => goodM_addDistractors 7 st0)
  exact goodM_mono h (by omega)

theorem goodM_genMissionGTRBB : GoodM genMissionGTRBB 18032 := by
  have h : GoodM genMissionGTRBB (16031 + (0 + (1 + (2000 + (0 + 0))))) := by
    refine goodM_bind goodM_distStage (fun p => ?_)
    refine goodM_bind (goodM_checkDists p.2) (fun _ => ?_)
    refine goodM_bind (goodM_randElem _) (fun c => ?_)
    refine goodM_bind (goodM_addObjectAt "ball" c p.1) (fun st2 => ?_)
    refine goodM_bind (goodM_checkReach st2) (fun _ => ?_)
    exact goodM_pure _ 0
  exact goodM_mono h (by omega)

/- Modelled from the spec: `OpenDoorsOrder.gen_mission` (lines 977-997)
calls helpers that live in levelgen / gym_minigrid, not under src/:
`_rand_subset` (element draws without replacement), `add_door(1, 1, color,
locked=False)` (a wall-index draw retried while that wall of the room
already carries a door; the color and the locked flag are given at the
call site, so neither a color draw nor a boolean draw happens inside),
the door positions pre-drawn along each wall of room (1,1) during grid
generation, and `place_agent(1, 1)`.  Each is modelled below as a consumer
of the same single RNG stream, with bounded retries failing loudly. -/

/-- `_rand_subset(l, n)`: draw a uniform element, remove it from the
working list, repeat `n` times (one stream draw per element). -/
def randSubset {α : Type} [DecidableEq α] : List α → Nat → GenM (List α)
  | _, 0 => GenM.pure []
  | l, n + 1 =>
    GenM.bind (randElem l) (fun x =>
    GenM.bind (randSubset (l.erase x) n) (fun rest =>
    GenM.pure (x :: rest)))

/-- A door of the OpenDoorsOrder level: the wall index it occupies in room
(1,1) (0 right, 1 down, 2 left, 3 up), its color, and its grid cell. -/
structure ODoor where
  idx : Int
  color : String
  pos : Int × Int
deriving DecidableEq, Repr

/-- Room (1,1) of the 3x3 grid with `room_size = 6` has `top = (5, 5)`:
the pre-drawn door cell on wall `i`, given the four pre-drawn offsets
(each sampled from `[6, 10)` during grid generation). -/
def doorPosOD (offs : Int × Int × Int × Int) (i : Int) : Int × Int :=
  if i = 0 then (10, offs.1)
  else if i = 1 then (offs.2.1, 10)
  else if i = 2 then (5, offs.2.2.1)
  else (offs.2.2.2, 5)

/-- Is wall index `i` already taken by a door? -/
def occupiedIdx (doors : List ODoor) (i : Int) : Bool :=
  doors.any (fun d => d.idx == i)

/-- The wall-index draw of `add_door` with `door_idx=None`: `_rand_int(0, 4)`
retried while the wall already has a door (room (1,1) has all four
neighbors, so only the occupancy check can reject). -/
def drawDoorIdx (doors : List ODoor) : Nat → GenM Int
  | 0 => GenM.throw .placeFail
  | fuel + 1 =>
    GenM.bind (randInt 0 4) (fun i =>
    if occupiedIdx doors i then drawDoorIdx doors fuel else GenM.pure i)

/-- The `for i in range(num_doors): add_door(1, 1, color=colors[i],
locked=False)` loop: countdown `n` with current index `numDoors - n`,
indexing into the drawn color subset. -/
def addDoorsLoop (offs : Int × Int × Int × Int) (colors : List String)
    (numDoors : Nat) : Nat → List ODoor → GenM (List ODoor)
  | 0, doors => GenM.pure doors
  | n + 1, doors =>
    GenM.bind (getElemM colors (Int.ofNat (numDoors - (n + 1)))) (fun c =>
    GenM.bind (drawDoorIdx doors 1000) (fun i =>
    addDoorsLoop offs colors numDoors n (doors ++ [⟨i, c, doorPosOD offs i⟩])))

/-- Interior (non-wall) cells of room (1,1): `top + 1 .. top + size - 2`. -/
def interiorOD (p : Int × Int) : Bool :=
  decide (6 ≤ p.1) && decide (p.1 ≤ 9) && decide (6 ≤ p.2) && decide (p.2 ≤ 9)

/-- `place_obj` restricted to a room: sample cells of `[lo, hi) x [lo, hi)`
until a free one is found; bounded retries. -/
def placeObjLoopIn (lo hi : Int) (free : Int × Int → Bool) : Nat → GenM (Int × Int)
  | 0 => GenM.throw .placeFail
  | fuel + 1 =>
    GenM.bind (randInt lo hi) (fun x =>
    GenM.bind (randInt lo hi) (fun y =>
    if free (x, y) then GenM.pure (x, y) else placeObjLoopIn lo hi free fuel))

/-- `place_agent(1, 1)`: a free cell of room (1,1) (sampled from
`[5, 11) x [5, 11)`, the room rectangle) and a direction draw. -/
def placeAgentOD : GenM ((Int × Int) × Int) :=
  GenM.bind (placeObjLoopIn 5 11 interiorOD 1000) (fun p =>
  GenM.bind (randInt 0 4) (fun d =>
  GenM.pure (p, d)))

/-- `door1, door2 = self._rand_subset(doors, 2)`: the tuple unpacking
(fails unless the subset has exactly two elements). -/
def unpackTwo {α : Type} : List α → GenM (α × α)
  | [d1, d2] => GenM.pure (d1, d2)
  | _ => GenM.throw .bad

/-- The `mode = self._rand_int(0, 3)` dispatch of lines 989-997: Open /
Before / After; the trailing branch is Python's `assert False`
(unreachable, since the draw is in `[0, 3)`). -/
def modeInstr (d1 d2 : ObjDesc) (mode : Int) : GenM Instr :=
  if mode = 0 then GenM.pure (Instr.openI d1)
  else if mode = 1 then GenM.pure (Instr.beforeI (Instr.openI d1) (Instr.openI d2))
  else if mode = 2 then GenM.pure (Instr.afterI (Instr.openI d1) (Instr.openI d2))
  else GenM.throw .bad

/-- World state of the OpenDoorsOrder level. -/
structure ODState where
  doors : List ODoor
  agentPos : Int × Int
  agentDir : Int
deriving DecidableEq, Repr

/-- `OpenDoorsOrder.gen_mission` (lines 977-997): the four pre-drawn door
offsets of room (1,1), the color subset, the door loop, the agent, the
two-door subset, the mode draw and the instruction. -/
def genMissionOD (numDoors : Nat) : GenM (ODState × Instr) :=
  GenM.bind (randInt 6 10) (fun o0 =>
  GenM.bind (randInt 6 10) (fun o1 =>
  GenM.bind (randInt 6 10) (fun o2 =>
  GenM.bind (randInt 6 10) (fun o3 =>
  GenM.bind (randSubset COLOR_NAMES numDoors) (fun colors =>
  GenM.bind (addDoorsLoop (o0, o1, o2, o3) colors numDoors numDoors []) (fun doors =>
  GenM.bind placeAgentOD (fun ag =>
  GenM.bind (randSubset doors 2) (fun two =>
  GenM.bind (unpackTwo two) (fun dd =>
  GenM.bind (randInt 0 3) (fun mode =>
  GenM.bind (modeInstr ⟨some "door", some dd.1.color, none⟩
      ⟨some "door", some dd.2.color, none⟩ mode) (fun ins =>
  GenM.pure (⟨doors, ag.1, ag.2⟩, ins))))))))))))

theorem goodM_randSubset {α : Type} [DecidableEq α] :
    ∀ (n : Nat) (l : List α), GoodM (randSubset l n) n := by
  intro n
  induction n with
  | zero => intro l; exact goodM_pure _ 0
  | succ m ih =>
    intro l
    have h : GoodM (randSubset l (m + 1)) (1 + (m + 0)) := by
      refine goodM_bind (goodM_randElem l) (fun x => ?_)
      refine goodM_bind (ih (l.erase x)) (fun rest => ?_)
      exact goodM_pure _ 0
    exact goodM_mono h (by omega)

theorem goodM_drawDoorIdx (doors : List ODoor) :
    ∀ fuel : Nat, GoodM (drawDoorIdx doors fuel) fuel := by
  intro fuel
  induction fuel with
  | zero => exact goodM_throw GErr.placeFail 0
  | succ n ih =>
    have h : GoodM (drawDoorIdx doors (n + 1)) (1 + n) := by
      refine goodM_bind (goodM_randInt 0 4) (fun i => ?_)
      exact goodM_ite _ ih (goodM_pure i n)
    exact goodM_mono h (by omega)

theorem goodM_addDoorsLoop (offs : Int × Int × Int × Int) (colors : List String)
    (numDoors : Nat) : ∀ (n : Nat) (doors : List ODoor),
    GoodM (addDoorsLoop offs colors numDoors n doors) (n * 1000) := by
  intro n
  induction n with
  | zero => intro doors; exact goodM_pure _ 0
  | succ m ih =>
    intro doors
    have h : GoodM (addDoorsLoop offs colors numDoors (m + 1) doors)
        (0 + (1000 + m * 1000)) := by
      refine goodM_bind (goodM_getElemM colors _ 0) (fun c => ?_)
      refine goodM_bind (goodM_drawDoorIdx doors 1000) (fun i => ?_)
      exact ih _
    exact goodM_mono h (by omega)

theorem goodM_placeObjLoopIn (lo hi : Int) (free : Int × Int → Bool) :
    ∀ fuel : Nat, GoodM (placeObjLoopIn lo hi free fuel) (2 * fuel) := by
  intro fuel
  induction fuel with
  | zero => exact goodM_throw GErr.placeFail 0
  | succ n ih =>
    have h : GoodM (placeObjLoopIn lo hi free (n + 1)) (1 + (1 + 2 * n)) := by
      refine goodM_bind (goodM_randInt lo hi) (fun x => ?_)
      refine goodM_bind (goodM_randInt lo hi) (fun y => ?_)
      exact goodM_ite _ (goodM_pure (x, y) (2 * n)) ih
    exact goodM_mono h (by omega)

theorem goodM_placeAgentOD : GoodM placeAgentOD 2001 := by
  have h : GoodM placeAgentOD (2 * 1000 + (1 + 0)) := by
    refine goodM_bind (goodM_placeObjLoopIn 5 11 interiorOD 1000) (fun p => ?_)
    refine goodM_bind (goodM_randInt 0 4) (fun d => ?_)
    exact goodM_pure _ 0
  exact goodM_mono h (by omega)

theorem goodM_unpackTwo {α : Type} (l : List α) : GoodM (unpackTwo l) 0 := by
  match l with
  | [] => exact goodM_throw _ 0
  | [a] => exact goodM_throw _ 0
  | [a, b] => exact goodM_pure _ 0
  | a :: b :: c :: rest => exact goodM_throw _ 0

theorem goodM_modeInstr (d1 d2 : ObjDesc) (mode : Int) :
    GoodM (modeInstr d1 d2 mode) 0 := by
  unfold modeInstr
  refine goodM_ite _ (goodM_pure _ 0) ?_
  refine goodM_ite _ (goodM_pure _ 0) ?_
  exact goodM_ite _ (goodM_pure _ 0) (goodM_throw _ 0)

theorem goodM_genMissionOD (numDoors : Nat) :
    GoodM (genMissionOD numDoors) (1001 * numDoors + 2008) := by
  have h : GoodM (genMissionOD numDoors)
      (1 + (1 + (1 + (1 + (numDoors + (numDoors * 1000 +
        (2001 + (2 + (0 + (1 + (0 + 0))))))))))) := by
    refine goodM_bind (goodM_randInt 6 10) (fun o0 => ?_)
    refine goodM_bind (goodM_randInt 6 10) (fun o1 => ?_)
    refine goodM_bind (goodM_randInt 6 10) (fun o2 => ?_)
    refine goodM_bind (goodM_randInt 6 10) (fun o3 => ?_)
    refine goodM_bind (goodM_randSubset numDoors COLOR_NAMES) (fun colors => ?_)
    refine goodM_bind (goodM_addDoorsLoop (o0, o1, o2, o3) colors numDoors numDoors [])
      (fun doors => ?_)
    refine goodM_bind goodM_placeAgentOD (fun ag => ?_)
    refine goodM_bind (goodM_randSubset 2 doors) (fun two => ?_)
    refine goodM_bind (goodM_unpackTwo two) (fun dd => ?_)
    refine goodM_bind (goodM_randInt 0 3) (fun mode => ?_)
    refine goodM_bind (goodM_modeInstr _ _ mode) (fun ins => ?_)
    exact goodM_pure _ 0
  exact goodM_mono h (by omega)

/-- C7 -- seed determinism of the generators the claim cites: for
`Level_GoToRedBlueBall.gen_mission` and for `OpenDoorsOrder.gen_mission`
(lines 977-997, including its `_rand_subset` subset draws), the generated
mission (world state and instruction, or the generation error) is a
function of a finite prefix of the single generator RNG stream.  Two runs
whose streams agree on that prefix produce identical missions -- in
particular two runs on the same seed do; no random choice is taken outside
the stream. -/
theorem c7_seed_determinism :
    (∀ g g2 : Nat → Nat, (∀ n, n < 18032 → g n = g2 n) →
      genMissionGTRBB g 0 = genMissionGTRBB g2 0) ∧
    (∀ (numDoors : Nat) (g g2 : Nat → Nat),
      (∀ n, n < 1001 * numDoors + 2008 → g n = g2 n) →
      genMissionOD numDoors g 0 = genMissionOD numDoors g2 0) := by
  constructor
  · intro g g2 h
    exact goodM_genMissionGTRBB.2 g g2 0 (fun n _ h2 => h n (by omega))
  · intro numDoors g g2 h
    exact (goodM_genMissionOD numDoors).2 g g2 0 (fun n _ h2 => h n (by omega))

/-- Witness for `c7_seed_determinism`: for each generator, two streams that
differ only beyond the consumed prefix generate the same mission. -/
theorem c7_witness :
    genMissionGTRBB (fun _ => 0) 0 =
      genMissionGTRBB (fun n => if n < 20000 then 0 else 7) 0 ∧
    genMissionOD 2 (fun _ => 0) 0 =
      genMissionOD 2 (fun n => if n < 20000 then 0 else 7) 0 :=
  ⟨c7_seed_determinism.1 (fun _ => 0) (fun n => if n < 20000 then 0 else 7)
      (fun n hn => by
        show (0 : Nat) = if n < 20000 then 0 else 7
        rw [if_pos (by omega)]),
   c7_seed_determinism.2 2 (fun _ => 0) (fun n => if n < 20000 then 0 else 7)
      (fun n hn => by
        show (0 : Nat) = if n < 20000 then 0 else 7
        rw [if_pos (by omega)])⟩

theorem bind_ok {α β : Type} {m : GenM α} {f : α → GenM β} {g : Nat → Nat} {k : Nat}
    {r : β × Nat} (h : GenM.bind m f g k = .ok r) :
    ∃ a k2, m g k = .ok (a, k2) ∧ f a g k2 = .ok r := by
  unfold GenM.bind at h
  cases hmk : m g k with
  | error e => rw [hmk] at h; exact Except.noConfusion h
  | ok p =>
    obtain ⟨a, k2⟩ := p
    rw [hmk] at h
    exact ⟨a, k2, rfl, h⟩

theorem bind_error {α β : Type} {m : GenM α} {f : α → GenM β} {g : Nat → Nat} {k : Nat}
    {E : GErr} (h : GenM.bind m f g k = .error E) :
    m g k = .error E ∨ ∃ a k2, m g k = .ok (a, k2) ∧ f a g k2 = .error E := by
  unfold GenM.bind at h
  cases hmk : m g k with
  | error e =>
    rw [hmk] at h
    left
    simpa using h
  | ok p =>
    obtain ⟨a, k2⟩ := p
    rw [hmk] at h
    exact Or.inr ⟨a, k2, rfl, h⟩

theorem randElem_mem {α : Type} {l : List α} {g : Nat → Nat} {k : Nat} {a : α} {k2 : Nat}
    (h : randElem l g k = .ok (a, k2)) : a ∈ l := by
  obtain ⟨i, k3, _, h2⟩ := bind_ok h
  unfold getElemM at h2
  cases hg : l.get? i.toNat with
  | none => rw [hg] at h2; exact Except.noConfusion h2
  | some b =>
    rw [hg] at h2
    injection h2 with h3
    injection h3 with h4 h5
    subst h4
    exact List.get?_mem hg

theorem placeAgent_ok {g : Nat → Nat} {k : Nat} {st0 : BState} {k2 : Nat}
    (h : placeAgent g k = .ok (st0, k2)) : st0.objs = [] := by
  obtain ⟨_, _, _, h⟩ := bind_ok h
  obtain ⟨_, _, _, h⟩ := bind_ok h
  obtain ⟨p, _, _, h⟩ := bind_ok h
  obtain ⟨d, _, _, h⟩ := bind_ok h
  injection h with h2
  injection h2 with h3 h4
  rw [← h3]

theorem addDistractors_objs :
    ∀ (n : Nat) (st : BState) (g : Nat → Nat) (k : Nat) (st2 : BState) (ds : List BObj)
      (k2 : Nat), addDistractors n st g k = .ok ((st2, ds), k2) →
      st2.objs = st.objs ++ ds := by
  intro n
  induction n with
  | zero =>
    intro st g k st2 ds k2 h
    injection h with h2
    injection h2 with h3 h4
    injection h3 with h5 h6
    subst h5; subst h6
    simp
  | succ m ih =>
    intro st g k st2 ds k2 h
    obtain ⟨c, _, _, h⟩ := bind_ok h
    obtain ⟨t, _, _, h⟩ := bind_ok h
    obtain ⟨_, _, _, h⟩ := bind_ok h
    obtain ⟨_, _, _, h⟩ := bind_ok h
    obtain ⟨p, _, _, h⟩ := bind_ok h
    obtain ⟨r, _, hrec, h⟩ := bind_ok h
    obtain ⟨r1, r2⟩ := r
    have hobjs := ih _ g _ r1 r2 _ hrec
    injection h with h2
    injection h2 with h3 h4
    injection h3 with h5 h6
    subst h5; subst h6
    rw [hobjs]
    simp

theorem addObjectAt_ok {kind color : String} {st : BState} {g : Nat → Nat} {k : Nat}
    {st2 : BState} {k2 : Nat} (h : addObjectAt kind color st g k = .ok (st2, k2)) :
    ∃ p, st2 = { st with objs := st.objs ++ [⟨kind, color, p⟩] } := by
  obtain ⟨p, _, _, h⟩ := bind_ok h
  injection h with h2
  injection h2 with h3 _
  exact ⟨p, h3.symm⟩

theorem checkDists_ok {ds : List BObj} {g : Nat → Nat} {k : Nat} {r : Unit × Nat}
    (h : checkDists ds g k = .ok r) : ds.any badDist = false := by
  unfold checkDists at h
  by_cases hany : ds.any badDist = true
  · rw [if_pos hany] at h
    exact Except.noConfusion h
  · revert hany
    cases ds.any badDist <;> simp

theorem checkDists_error {ds : List BObj} {g : Nat → Nat} {k : Nat} {msg : String}
    (h : checkDists ds g k = .error (.reject msg)) :
    msg = "can only have one blue or red ball" ∧ ds.any badDist = true := by
  unfold checkDists at h
  by_cases hany : ds.any badDist = true
  · rw [if_pos hany] at h
    injection h with h2
    injection h2 with h3
    exact ⟨h3.symm, hany⟩
  · rw [if_neg hany] at h
    exact Except.noConfusion h

theorem checkReach_error {st : BState} {g : Nat → Nat} {k : Nat} {msg : String}
    (h : checkReach st g k = .error (.reject msg)) : msg = "unreachable object" := by
  unfold checkReach at h
  by_cases hall : st.objs.all (fun o => (reachSet st).contains o.pos) = true
  · rw [if_pos hall] at h
    exact Except.noConfusion h
  · rw [if_neg hall] at h
    injection h with h2
    injection h2 with h3
    exact h3.symm

/-- `m` never raises `RejectSampling`. -/
def NoReject {α : Type} (m : GenM α) : Prop :=
  ∀ g k msg, m g k ≠ .error (.reject msg)

theorem noReject_pure {α : Type} (a : α) : NoReject (GenM.pure a) :=
  fun _ _ _ h => Except.noConfusion h

theorem noReject_throwBad {α : Type} : NoReject (GenM.throw GErr.bad : GenM α) := by
  intro g k msg h
  injection h with h2
  exact GErr.noConfusion h2

theorem noReject_throwPlace {α : Type} : NoReject (GenM.throw GErr.placeFail : GenM α) := by
  intro g k msg h
  injection h with h2
  exact GErr.noConfusion h2

theorem noReject_randInt (lo hi : Int) : NoReject (randInt lo hi) := by
  intro g k msg h
  unfold randInt at h
  by_cases hlt : lo < hi
  · rw [if_pos hlt] at h
    exact Except.noConfusion h
  · rw [if_neg hlt] at h
    injection h with h2
    exact GErr.noConfusion h2

theorem noReject_getElemM {α : Type} (l : List α) (i : Int) : NoReject (getElemM l i) := by
  intro g k msg h
  unfold getElemM at h
  cases hg : l.get? i.toNat with
  | none =>
    rw [hg] at h
    injection h with h2
    exact GErr.noConfusion h2
  | some a =>
    rw [hg] at h
    exact Except.noConfusion h

theorem noReject_bind {α β : Type} {m : GenM α} {f : α → GenM β}
    (hm : NoReject m) (hf : ∀ a, NoReject (f a)) : NoReject (GenM.bind m f) := by
  intro g k msg h
  rcases bind_error h with h1 | ⟨a, k2, _, h2⟩
  · exact hm g k msg h1
  · exact hf a g k2 msg h2

theorem noReject_ite {α : Type} (cond : Prop) [Decidable cond] {m1 m2 : GenM α}
    (h1 : NoReject m1) (h2 : NoReject m2) : NoReject (if cond then m1 else m2) := by
  by_cases h : cond
  · rw [if_pos h]; exact h1
  · rw [if_neg h]; exact h2

theorem noReject_randElem {α : Type} (l : List α) : NoReject (randElem l) :=
  noReject_bind (noReject_randInt 0 l.length) (fun i => noReject_getElemM l i)

theorem noReject_placeObjLoop (free : Int × Int → Bool) :
    ∀ fuel : Nat, NoReject (placeObjLoop free fuel) := by
  intro fuel
  induction fuel with
  | zero => exact noReject_throwPlace
  | succ n ih =>
    refine noReject_bind (noReject_randInt 0 8) (fun x => ?_)
    refine noReject_bind (noReject_randInt 0 8) (fun y => ?_)
    exact noReject_ite _ (noReject_pure (x, y)) ih

theorem noReject_placeAgent : NoReject placeAgent := by
  refine noReject_bind (noReject_randInt 0 1) (fun _ => ?_)
  refine noReject_bind (noReject_randInt 0 1) (fun _ => ?_)
  refine noReject_bind (noReject_placeObjLoop interiorB 1000) (fun p => ?_)
  refine noReject_bind (noReject_randInt 0 4) (fun d => ?_)
  exact noReject_pure _

theorem noReject_addObjectAt (kind color : String) (st : BState) :
    NoReject (addObjectAt kind color st) :=
  noReject_bind (noReject_placeObjLoop _ 1000) (fun p => noReject_pure _)

theorem noReject_addDistractors :
    ∀ (n : Nat) (st : BState), NoReject (addDistractors n st) := by
  intro n
  induction n with
  | zero => intro st; exact noReject_pure _
  | succ m ih =>
    intro st
    refine noReject_bind (noReject_randElem COLOR_NAMES) (fun c => ?_)
    refine noReject_bind (noReject_randElem ["key", "ball", "box"]) (fun t => ?_)
    refine noReject_bind (noReject_randInt 0 1) (fun _ => ?_)
    refine noReject_bind (noReject_randInt 0 1) (fun _ => ?_)
    refine noReject_bind (noReject_placeObjLoop _ 1000) (fun p => ?_)
    refine noReject_bind (ih _) (fun r => ?_)
    exact noReject_pure _

theorem noReject_distStage : NoReject distStage :=
  noReject_bind noReject_placeAgent (fun st0 => noReject_addDistractors 7 st0)

/-- Conjunctive descriptor matching against a placed object (the location
field is agent-relative and never set here). -/
def descMatchesB (dsc : ObjDesc) (o : BObj) : Bool :=
  (match dsc.type with | none => true | some t => t == o.kind) &&
  (match dsc.color with | none => true | some c => c == o.color) &&
  (dsc.loc == none)

/-- C10 (amended) -- the red/blue-ball rejection of
`Level_GoToRedBlueBall.gen_mission`.  (i) If the distractor stage yields a
distractor that is a red or blue ball, generation raises `RejectSampling`
with the source's message.  (ii) Every successfully generated mission has
object list `distractors ++ [goal ball]` with the goal ball red or blue,
no red/blue-ball distractor, exactly one red-or-blue ball in the world,
the `GoTo` instruction on the ball's type and color, and a goal descriptor
matching no distractor.  (iii) `RejectSampling` can also be raised by the
reachability check -- any `RejectSampling` is one of the two -- which is
what refutes the claim's "if and only if" (see `c10_counterexample`). -/
theorem c10_redblue_rejection :
    (∀ (g : Nat → Nat) (k : Nat) (st : BState) (ds : List BObj) (k2 : Nat),
      distStage g k = .ok ((st, ds), k2) → ds.any badDist = true →
      genMissionGTRBB g k = .error (.reject "can only have one blue or red ball")) ∧
    (∀ (g : Nat → Nat) (k : Nat) (st : BState) (ins : Instr) (k2 : Nat),
      genMissionGTRBB g k = .ok ((st, ins), k2) →
      ∃ ds c p, st.objs = ds ++ [⟨"ball", c, p⟩] ∧ (c = "red" ∨ c = "blue") ∧
        ds.any badDist = false ∧ ins = .goto ⟨some "ball", some c, none⟩ ∧
        st.objs.countP badDist = 1 ∧
        ∀ d ∈ ds, descMatchesB ⟨some "ball", some c, none⟩ d = false) ∧
    (∀ (g : Nat → Nat) (k : Nat) (msg : String),
      genMissionGTRBB g k = .error (.reject msg) →
      msg = "can only have one blue or red ball" ∨ msg = "unreachable object") := by
  refine ⟨?_, ?_, ?_⟩
  · intro g k st ds k2 hdist hbad
    have hck : checkDists ds g k2 = .error (.reject "can only have one blue or red ball") := by
      unfold checkDists
      rw [if_pos hbad]
      rfl
    show GenM.bind distStage _ g k = _
    unfold GenM.bind
    simp only [hdist, hck]
  · intro g k st ins k2 h
    obtain ⟨p1, kA, hdist, h⟩ := bind_ok h
    obtain ⟨st1, ds⟩ := p1
    obtain ⟨u, kB, hchk, h⟩ := bind_ok h
    obtain ⟨c, kC, hcol, h⟩ := bind_ok h
    obtain ⟨st2, kD, hadd, h⟩ := bind_ok h
    obtain ⟨u2, kE, hrch, h⟩ := bind_ok h
    injection h with h2
    injection h2 with h3 h4
    injection h3 with h5 h6
    obtain ⟨st0, kZ, hpa, hdists⟩ := bind_ok hdist
    have h0 : st0.objs = [] := placeAgent_ok hpa
    have h1 : st1.objs = st0.objs ++ ds :=
      addDistractors_objs 7 st0 g kZ st1 ds kA hdists
    have hany : ds.any badDist = false := checkDists_ok hchk
    have hcmem : c ∈ ["red", "blue"] := randElem_mem hcol
    have hcrb : c = "red" ∨ c = "blue" := by
      rcases List.mem_cons.mp hcmem with hx | hx
      · exact Or.inl hx
      · rcases List.mem_cons.mp hx with hx | hx
        · exact Or.inr hx
        · cases hx
    obtain ⟨p, hst2⟩ := addObjectAt_ok hadd
    have hobjs : st2.objs = ds ++ [⟨"ball", c, p⟩] := by
      rw [hst2]
      show st1.objs ++ [(⟨"ball", c, p⟩ : BObj)] = ds ++ [⟨"ball", c, p⟩]
      rw [h1, h0]
      simp
    have hballbad : badDist ⟨"ball", c, p⟩ = true := by
      rcases hcrb with hc | hc <;> subst hc <;> rfl
    have hdsfalse : ∀ d ∈ ds, ¬(badDist d = true) := by
      intro d hd
      have := List.any_eq_false.mp hany
      exact this d hd
    refine ⟨ds, c, p, ?_, hcrb, hany, ?_, ?_, ?_⟩
    · rw [← h5]
      exact hobjs
    · exact h6.symm
    · rw [← h5, hobjs, List.countP_append]
      have hds0 : ds.countP badDist = 0 := by
        rw [List.countP_eq_zero]
        exact hdsfalse
      rw [hds0]
      show 0 + List.countP badDist [⟨"ball", c, p⟩] = 1
      rw [List.countP_singleton, hballbad]
      decide
    · intro d hd
      cases hm : descMatchesB ⟨some "ball", some c, none⟩ d with
      | false => rfl
      | true =>
        exfalso
        unfold descMatchesB at hm
        simp only [Bool.and_eq_true, beq_iff_eq] at hm
        obtain ⟨⟨hkind, hcolor⟩, _⟩ := hm
        apply hdsfalse d hd
        unfold badDist
        rw [← hkind, ← hcolor]
        rcases hcrb with hc | hc <;> subst hc <;> rfl
  · intro g k msg h
    rcases bind_error h with h1 | ⟨p1, kA, hdist, h⟩
    · exact absurd h1 (noReject_distStage g k msg)
    · rcases bind_error h with h2 | ⟨u, kB, hchk, h⟩
      · exact Or.inl (checkDists_error h2).1
      · rcases bind_error h with h3 | ⟨c, kC, hcol, h⟩
        · exact absurd h3 (noReject_randElem _ g kB msg)
        · rcases bind_error h with h4 | ⟨st2, kD, hadd, h⟩
          · exact absurd h4 (noReject_addObjectAt "ball" c _ g kC msg)
          · rcases bind_error h with h5 | ⟨u2, kE, hrch, h⟩
            · exact Or.inr (checkReach_error h5)
            · exact absurd h (noReject_pure _ g kE msg)

/-- C10 counterexample stream: agent at (4,4); seven distractors, none a
red or blue ball, three of them walling the grey box at (1,1) into the
corner; goal ball red at (6,6). -/
def ctrList : List Nat :=
  [0, 0, 4, 4, 0,
   1, 0, 0, 0, 1, 2,
   1, 0, 0, 0, 2, 1,
   2, 2, 0, 0, 1, 1,
   1, 0, 0, 0, 3, 3,
   1, 0, 0, 0, 5, 3,
   1, 0, 0, 0, 3, 5,
   1, 0, 0, 0, 5, 5,
   0, 6, 6]

def ctrStream : Nat → Nat := fun n => ctrList.getD n 0

/-- The distractors sampled by `ctrStream`. -/
def dsCtr : List BObj :=
  [⟨"key", "green", (1, 2)⟩, ⟨"key", "green", (2, 1)⟩, ⟨"box", "grey", (1, 1)⟩,
   ⟨"key", "green", (3, 3)⟩, ⟨"key", "green", (5, 3)⟩, ⟨"key", "green", (3, 5)⟩,
   ⟨"key", "green", (5, 5)⟩]

/-- C10 counterexample: no distractor is a red or blue ball, yet
`gen_mission` raises `RejectSampling` (from `check_objs_reachable`: the
box at (1,1) is walled in), refuting the claimed "if and only if". -/
theorem c10_counterexample :
    distStage ctrStream 0 = .ok ((⟨(4, 4), 0, dsCtr⟩, dsCtr), 47) ∧
    dsCtr.any badDist = false ∧
    genMissionGTRBB ctrStream 0 = .error (.reject "unreachable object") :=
  ⟨rfl, rfl, rfl⟩

/-- C10 witness stream: the first distractor is a blue ball. -/
def gwList : List Nat :=
  [0, 0, 4, 4, 0,
   0, 1, 0, 0, 1, 2,
   1, 0, 0, 0, 1, 3,
   1, 0, 0, 0, 1, 4,
   1, 0, 0, 0, 1, 5,
   1, 0, 0, 0, 2, 3,
   1, 0, 0, 0, 2, 5,
   1, 0, 0, 0, 3, 3]

def gwStream : Nat → Nat := fun n => gwList.getD n 0

/-- The distractors sampled by `gwStream`. -/
def dsW : List BObj :=
  [⟨"ball", "blue", (1, 2)⟩, ⟨"key", "green", (1, 3)⟩, ⟨"key", "green", (1, 4)⟩,
   ⟨"key", "green", (1, 5)⟩, ⟨"key", "green", (2, 3)⟩, ⟨"key", "green", (2, 5)⟩,
   ⟨"key", "green", (3, 3)⟩]

/-- Witness for `c10_redblue_rejection`: a run whose distractor stage
produced a blue ball is rejected with the source's message. -/
theorem c10_witness :
    genMissionGTRBB gwStream 0 = .error (.reject "can only have one blue or red ball") :=
  c10_redblue_rejection.1 gwStream 0 ⟨(4, 4), 0, dsW⟩ dsW 47 rfl rfl

end BabyAI
